import Mathlib

/-!
# CppAD: operator codes and the computed assignment `AD<Base>::operator /=`

A shallow embedding of

* `cppad/local/op_code.hpp`: the enumeration `OpCode`, the lookup functions `NumArg`,
  `NumRes` and `OpName`, the function `arg_is_variable` and the printing functions
  `printOpField` and `printOp`;
* `cppad/core/div_eq.hpp`: the member function `AD<Base>::operator /=`;
* `speed/cppad/ode.cpp`: the routine `link_ode`.

The embedding is of the debug build (`NDEBUG` not defined): `CPPAD_ASSERT_KNOWN` and
`CPPAD_ASSERT_UNKNOWN` are active and a failing one ends the call with a `Fault`.
Unsigned machine integers (`size_t`, `addr_t`, `tape_id_t`) are natural numbers.  The sums of
operator arguments that the code computes in the argument type (`7 + arg[4] + arg[5]` in
`arg_is_variable`, `6 + ind[4] + ind[5]` and `ind[4] + ind[5]` in `printOp`) are taken modulo
`2 ^ w`, where `w` is the number of bits of that type; the difference `width-1`, which wraps
around in `printOpField` for a zero width, is a `Fault`.
-/

namespace CppAD

/-! ## `op_code.hpp` -/

/-- The enumeration type `OpCode`.  A C++ enumeration converts to `size_t`; the lookup functions
index their tables by that number and compare it with `NumberOp`, so an operator code is embedded
as the natural number `size_t(op)`. -/
abbrev OpCode := Nat

abbrev AbsOp : OpCode := 0  -- fabs(variable)
abbrev AcosOp : OpCode := 1  -- acos(variable)
abbrev AcoshOp : OpCode := 2  -- acosh(variable)
abbrev AddpvOp : OpCode := 3  -- parameter  + variable
abbrev AddvvOp : OpCode := 4  -- variable   + variable
abbrev AsinOp : OpCode := 5  -- asin(variable)
abbrev AsinhOp : OpCode := 6  -- asinh(variable)
abbrev AtanOp : OpCode := 7  -- atan(variable)
abbrev AtanhOp : OpCode := 8  -- atanh(variable)
abbrev BeginOp : OpCode := 9  -- used to mark the beginning of the tape
abbrev CExpOp : OpCode := 10  -- CondExpRel(left, right, trueCase, falseCase)
abbrev CosOp : OpCode := 11  -- cos(variable)
abbrev CoshOp : OpCode := 12  -- cosh(variable)
abbrev CSkipOp : OpCode := 13  -- Conditional skip
abbrev CSumOp : OpCode := 14  -- Cummulative summation
abbrev DisOp : OpCode := 15  -- discrete::eval(index, variable)
abbrev DivpvOp : OpCode := 16  -- parameter  / variable
abbrev DivvpOp : OpCode := 17  -- variable   / parameter
abbrev DivvvOp : OpCode := 18  -- variable   / variable
abbrev EndOp : OpCode := 19  -- used to mark the end of the tape
abbrev EqppOp : OpCode := 20  -- parameter  == parameter
abbrev EqpvOp : OpCode := 21  -- parameter  == variable
abbrev EqvvOp : OpCode := 22  -- variable   == variable
abbrev ErfOp : OpCode := 23  -- erf(variable)
abbrev ExpOp : OpCode := 24  -- exp(variable)
abbrev Expm1Op : OpCode := 25  -- expm1(variable)
abbrev InvOp : OpCode := 26  -- independent variable
abbrev LdpOp : OpCode := 27  -- z[parameter] (parameter converted to index)
abbrev LdvOp : OpCode := 28  -- z[variable]
abbrev LeppOp : OpCode := 29  -- parameter <= parameter
abbrev LepvOp : OpCode := 30  -- parameter <= variable
abbrev LevpOp : OpCode := 31  -- variable  <= parameter
abbrev LevvOp : OpCode := 32  -- variable  <= variable
abbrev LogOp : OpCode := 33  -- log(variable)
abbrev Log1pOp : OpCode := 34  -- log1p(variable)
abbrev LtppOp : OpCode := 35  -- parameter < parameter
abbrev LtpvOp : OpCode := 36  -- parameter < variable
abbrev LtvpOp : OpCode := 37  -- variable  < parameter
abbrev LtvvOp : OpCode := 38  -- variable  < variable
abbrev MulpvOp : OpCode := 39  -- parameter  * variable
abbrev MulvvOp : OpCode := 40  -- variable   * variable
abbrev NeppOp : OpCode := 41  -- parameter  != parameter
abbrev NepvOp : OpCode := 42  -- parameter  != variable
abbrev NevvOp : OpCode := 43  -- variable   != variable
abbrev ParOp : OpCode := 44  -- parameter
abbrev PowpvOp : OpCode := 45  -- pow(parameter,   variable)
abbrev PowvpOp : OpCode := 46  -- pow(variable,    parameter)
abbrev PowvvOp : OpCode := 47  -- pow(variable,    variable)
abbrev PriOp : OpCode := 48  -- PrintFor(text, parameter or variable, parameter or variable)
abbrev SignOp : OpCode := 49  -- sign(variable)
abbrev SinOp : OpCode := 50  -- sin(variable)
abbrev SinhOp : OpCode := 51  -- sinh(variable)
abbrev SqrtOp : OpCode := 52  -- sqrt(variable)
abbrev StppOp : OpCode := 53  -- z[parameter] = parameter (first parameter converted to index)
abbrev StpvOp : OpCode := 54  -- z[parameter] = variable  (parameter converted to index)
abbrev StvpOp : OpCode := 55  -- z[variable]  = parameter
abbrev StvvOp : OpCode := 56  -- z[variable]  = variable
abbrev SubpvOp : OpCode := 57  -- parameter  - variable
abbrev SubvpOp : OpCode := 58  -- variable   - parameter
abbrev SubvvOp : OpCode := 59  -- variable   - variable
abbrev TanOp : OpCode := 60  -- tan(variable)
abbrev TanhOp : OpCode := 61  -- tan(variable)
abbrev UserOp : OpCode := 62  -- start of a user atomic operaiton
abbrev UsrapOp : OpCode := 63  -- this user atomic argument is a parameter
abbrev UsravOp : OpCode := 64  -- this user atomic argument is a variable
abbrev UsrrpOp : OpCode := 65  -- this user atomic result is a parameter
abbrev UsrrvOp : OpCode := 66  -- this user atomic result is a variable
abbrev ZmulpvOp : OpCode := 67  -- azmul(parameter, variable)
abbrev ZmulvpOp : OpCode := 68  -- azmul(variabe,  parameter)
abbrev ZmulvvOp : OpCode := 69  -- azmul(variable, variable)
abbrev NumberOp : OpCode := 70  -- number of operator codes (not an operator)

/-- The static table `NumArgTable` of `NumArg`. -/
def NumArgTable : List Nat := [
  1, -- AbsOp
  1, -- AcosOp
  1, -- AcoshOp
  2, -- AddpvOp
  2, -- AddvvOp
  1, -- AsinOp
  1, -- AsinhOp
  1, -- AtanOp
  1, -- AtanhOp
  1, -- BeginOp
  6, -- CExpOp
  1, -- CosOp
  1, -- CoshOp
  0, -- CSkipOp
  0, -- CSumOp
  2, -- DisOp
  2, -- DivpvOp
  2, -- DivvpOp
  2, -- DivvvOp
  0, -- EndOp
  2, -- EqppOp
  2, -- EqpvOp
  2, -- EqvvOp
  3, -- ErfOp
  1, -- ExpOp
  1, -- Expm1Op
  0, -- InvOp
  3, -- LdpOp
  3, -- LdvOp
  2, -- LeppOp
  2, -- LepvOp
  2, -- LevpOp
  2, -- LevvOp
  1, -- LogOp
  1, -- Log1pOp
  2, -- LtppOp
  2, -- LtpvOp
  2, -- LtvpOp
  2, -- LtvvOp
  2, -- MulpvOp
  2, -- MulvvOp
  2, -- NeppOp
  2, -- NepvOp
  2, -- NevvOp
  1, -- ParOp
  2, -- PowpvOp
  2, -- PowvpOp
  2, -- PowvvOp
  5, -- PriOp
  1, -- SignOp
  1, -- SinOp
  1, -- SinhOp
  1, -- SqrtOp
  3, -- StppOp
  3, -- StpvOp
  3, -- StvpOp
  3, -- StvvOp
  2, -- SubpvOp
  2, -- SubvpOp
  2, -- SubvvOp
  1, -- TanOp
  1, -- TanhOp
  4, -- UserOp
  1, -- UsrapOp
  1, -- UsravOp
  1, -- UsrrpOp
  0, -- UsrrvOp
  2, -- ZmulpvOp
  2, -- ZmulvpOp
  2, -- ZmulvvOp
  0  -- NumberOp
  ]

/-- The static table `NumResTable` of `NumRes`. -/
def NumResTable : List Nat := [
  1, -- AbsOp
  2, -- AcosOp
  2, -- AcoshOp
  1, -- AddpvOp
  1, -- AddvvOp
  2, -- AsinOp
  2, -- AsinhOp
  2, -- AtanOp
  2, -- AtanhOp
  1, -- BeginOp
  1, -- CExpOp
  2, -- CosOp
  2, -- CoshOp
  0, -- CSkipOp
  1, -- CSumOp
  1, -- DisOp
  1, -- DivpvOp
  1, -- DivvpOp
  1, -- DivvvOp
  0, -- EndOp
  0, -- EqppOp
  0, -- EqpvOp
  0, -- EqvvOp
  5, -- ErfOp
  1, -- ExpOp
  1, -- Expm1Op
  1, -- InvOp
  1, -- LdpOp
  1, -- LdvOp
  0, -- LeppOp
  0, -- LepvOp
  0, -- LevpOp
  0, -- LevvOp
  1, -- LogOp
  1, -- Log1pOp
  0, -- LtppOp
  0, -- LtpvOp
  0, -- LtvpOp
  0, -- LtvvOp
  1, -- MulpvOp
  1, -- MulvvOp
  0, -- NeppOp
  0, -- NepvOp
  0, -- NevvOp
  1, -- ParOp
  3, -- PowpvOp
  3, -- PowvpOp
  3, -- PowvvOp
  0, -- PriOp
  1, -- SignOp
  2, -- SinOp
  2, -- SinhOp
  1, -- SqrtOp
  0, -- StppOp
  0, -- StpvOp
  0, -- StvpOp
  0, -- StvvOp
  1, -- SubpvOp
  1, -- SubvpOp
  1, -- SubvvOp
  2, -- TanOp
  2, -- TanhOp
  0, -- UserOp
  0, -- UsrapOp
  0, -- UsravOp
  0, -- UsrrpOp
  1, -- UsrrvOp
  1, -- ZmulpvOp
  1, -- ZmulvpOp
  1, -- ZmulvvOp
  0  -- NumberOp
  ]

/-- The static table `OpNameTable` of `OpName`. -/
def OpNameTable : List String := [
  "Abs", -- AbsOp
  "Acos", -- AcosOp
  "Acosh", -- AcoshOp
  "Addpv", -- AddpvOp
  "Addvv", -- AddvvOp
  "Asin", -- AsinOp
  "Asinh", -- AsinhOp
  "Atan", -- AtanOp
  "Atanh", -- AtanhOp
  "Begin", -- BeginOp
  "CExp", -- CExpOp
  "Cos", -- CosOp
  "Cosh", -- CoshOp
  "CSkip", -- CSkipOp
  "CSum", -- CSumOp
  "Dis", -- DisOp
  "Divpv", -- DivpvOp
  "Divvp", -- DivvpOp
  "Divvv", -- DivvvOp
  "End", -- EndOp
  "Eqpp", -- EqppOp
  "Eqpv", -- EqpvOp
  "Eqvv", -- EqvvOp
  "Erf", -- ErfOp
  "Exp", -- ExpOp
  "Expm1", -- Expm1Op
  "Inv", -- InvOp
  "Ldp", -- LdpOp
  "Ldv", -- LdvOp
  "Lepp", -- LeppOp
  "Lepv", -- LepvOp
  "Levp", -- LevpOp
  "Levv", -- LevvOp
  "Log", -- LogOp
  "Log1p", -- Log1pOp
  "Ltpp", -- LtppOp
  "Ltpv", -- LtpvOp
  "Ltvp", -- LtvpOp
  "Ltvv", -- LtvvOp
  "Mulpv", -- MulpvOp
  "Mulvv", -- MulvvOp
  "Nepp", -- NeppOp
  "Nepv", -- NepvOp
  "Nevv", -- NevvOp
  "Par", -- ParOp
  "Powpv", -- PowpvOp
  "Powvp", -- PowvpOp
  "Powvv", -- PowvvOp
  "Pri", -- PriOp
  "Sign", -- SignOp
  "Sin", -- SinOp
  "Sinh", -- SinhOp
  "Sqrt", -- SqrtOp
  "Stpp", -- StppOp
  "Stpv", -- StpvOp
  "Stvp", -- StvpOp
  "Stvv", -- StvvOp
  "Subpv", -- SubpvOp
  "Subvp", -- SubvpOp
  "Subvv", -- SubvvOp
  "Tan", -- TanOp
  "Tanh", -- TanhOp
  "User", -- UserOp
  "Usrap", -- UsrapOp
  "Usrav", -- UsravOp
  "Usrrp", -- UsrrpOp
  "Usrrv", -- UsrrvOp
  "Zmulpv", -- ZmulpvOp
  "Zmulvp", -- ZmulvpOp
  "Zmulvv", -- ZmulvvOp
  "Number"  -- NumberOp
  ]

/-- What the lookup functions take from headers that are not among the sources
(`cppad/utility/thread_alloc.hpp`, `cppad/local/define.hpp`), together with the value of the
function-local static flag of `NumArg` when the call is made, and the width of the type of the
operator arguments that `arg_is_variable` is instantiated with. -/
structure Env where
  /-- The assertion made by the macro `CPPAD_ASSERT_FIRST_CALL_NOT_PARALLEL` fails: the function
  is called for the first time while the program is in parallel mode. -/
  first_call_parallel : Bool
  /-- The static `first` of `NumArg`: true until `NumArg` has been called once. -/
  first : Bool
  /-- The value of `is_pod<opcode_t>()`, where `opcode_t` is `CPPAD_VEC_ENUM_TYPE`. -/
  is_pod_opcode_t : Bool
  /-- The value of `std::numeric_limits<opcode_t>::max()`. -/
  opcode_t_max : Nat
  /-- The number of bits of the template parameter `Addr` of `arg_is_variable`, an unsigned
  integer type that is at least as wide as `int`: a sum of an `int` and values of type `Addr` is
  computed in `Addr`, modulo `2 ^ Addr_bits`. -/
  Addr_bits : Nat

/-- Ways in which a call can end with an error. -/
inductive Fault where
  /-- A `CPPAD_ASSERT_KNOWN` failed (a usage error, reported with this message). -/
  | assert_known (msg : String)
  /-- A `CPPAD_ASSERT_UNKNOWN` failed. -/
  | assert_unknown
  /-- The assertion of `CPPAD_ASSERT_FIRST_CALL_NOT_PARALLEL` failed. -/
  | first_call_not_parallel
  /-- An array or a string is read outside its bounds (undefined behaviour in C++). -/
  | out_of_range
  deriving DecidableEq, Repr

/-- The macro `CPPAD_ASSERT_UNKNOWN(exp)` in a function that returns no state. -/
def CPPAD_ASSERT_UNKNOWN (exp : Bool) : Except Fault Unit :=
  if exp then .ok () else .error .assert_unknown

/-- The macro `CPPAD_ASSERT_FIRST_CALL_NOT_PARALLEL`. -/
def CPPAD_ASSERT_FIRST_CALL_NOT_PARALLEL (env : Env) : Except Fault Unit :=
  if env.first_call_parallel then .error .first_call_not_parallel else .ok ()

/-- Number of arguments for a specified operator: `NumArg(op)`. -/
def NumArg (env : Env) (op : OpCode) : Except Fault Nat := do
  CPPAD_ASSERT_FIRST_CALL_NOT_PARALLEL env
  -- only do these checks once to save time
  if env.first then
    -- check that NumberOp is last value in op code table
    CPPAD_ASSERT_UNKNOWN (NumberOp + 1 == NumArgTable.length)
    -- check the type CPPAD_VEC_ENUM_TYPE
    CPPAD_ASSERT_UNKNOWN env.is_pod_opcode_t
    CPPAD_ASSERT_UNKNOWN (decide (NumberOp < env.opcode_t_max))
  -- do this check every time
  CPPAD_ASSERT_UNKNOWN (decide (op < NumberOp))
  return NumArgTable.getD op 0

/-- Number of variables resulting from the specified operation: `NumRes(op)`. -/
def NumRes (env : Env) (op : OpCode) : Except Fault Nat := do
  CPPAD_ASSERT_FIRST_CALL_NOT_PARALLEL env
  -- check ensuring conversion to size_t is as expected
  CPPAD_ASSERT_UNKNOWN (NumberOp + 1 == NumResTable.length)
  -- this test ensures that all indices are within the table
  CPPAD_ASSERT_UNKNOWN (decide (op < NumberOp))
  return NumResTable.getD op 0

/-- Fetch the name for a specified operation: `OpName(op)`. -/
def OpName (op : OpCode) : Except Fault String := do
  -- check ensuring conversion to size_t is as expected
  CPPAD_ASSERT_UNKNOWN (NumberOp + 1 == OpNameTable.length)
  -- this test ensures that all indices are within the table
  CPPAD_ASSERT_UNKNOWN (decide (op < NumberOp))
  return OpNameTable.getD op ""

/-- The identifiers of the enumerators of `OpCode`, in the order of the enumeration. -/
def OpCodeIdent : List String := [
  "AbsOp", "AcosOp", "AcoshOp", "AddpvOp", "AddvvOp", "AsinOp", "AsinhOp", "AtanOp",
  "AtanhOp", "BeginOp", "CExpOp", "CosOp", "CoshOp", "CSkipOp", "CSumOp", "DisOp",
  "DivpvOp", "DivvpOp", "DivvvOp", "EndOp", "EqppOp", "EqpvOp", "EqvvOp", "ErfOp",
  "ExpOp", "Expm1Op", "InvOp", "LdpOp", "LdvOp", "LeppOp", "LepvOp", "LevpOp",
  "LevvOp", "LogOp", "Log1pOp", "LtppOp", "LtpvOp", "LtvpOp", "LtvvOp", "MulpvOp",
  "MulvvOp", "NeppOp", "NepvOp", "NevvOp", "ParOp", "PowpvOp", "PowvpOp", "PowvvOp",
  "PriOp", "SignOp", "SinOp", "SinhOp", "SqrtOp", "StppOp", "StpvOp", "StvpOp",
  "StvvOp", "SubpvOp", "SubvpOp", "SubvvOp", "TanOp", "TanhOp", "UserOp", "UsrapOp",
  "UsravOp", "UsrrpOp", "UsrrvOp", "ZmulpvOp", "ZmulvpOp", "ZmulvvOp", "NumberOp"]

/-- The environment after a call of `NumArg` has returned: the function-local static flags
have been cleared, so a later call skips the first-call checks. -/
def Env.called (env : Env) : Env :=
  { env with first_call_parallel := false, first := false }

/-- Modelled from the spec: a `pod_vector<bool>` (the class `pod_vector` is declared outside the
sources), as the documentation and the body of `arg_is_variable` use it: a vector with a size,
set by `resize`, whose elements are assigned by index.  An element is `none` as long as it has
not been assigned since the last `resize` (its value does not matter), and `some b` once `b`
has been assigned to it. -/
abbrev pod_vector := List (Option Bool)

/-- Modelled from the spec: `resize(n)` sets the size to `n`; no element keeps a value that
matters. -/
def pod_vector.resize (_v : pod_vector) (n : Nat) : pod_vector :=
  List.replicate n none

/-- Modelled from the spec: the assignment `v[j] = b`; an index that is not below the size is a
fault. -/
def pod_vector.assign (v : pod_vector) (j : Nat) (b : Bool) : Except Fault pod_vector :=
  if j < v.length then .ok (v.set j (some b)) else .error .assert_unknown

/-- The loop `for(size_t i = start; i < start + count; ++i) is_variable[i] = f(i)`. -/
def pod_vector.assign_loop (f : Nat → Bool) :
    (count start : Nat) → pod_vector → Except Fault pod_vector
  | 0, _, v => .ok v
  | count + 1, start, v => do
    let v ← v.assign start (f start)
    pod_vector.assign_loop f count (start + 1) v

/-- Determines which arguments are variables for an operator: `arg_is_variable(op, arg,
is_variable)`.  The pointer `arg` is embedded as the function that maps `k` to `arg[k]`, the
template parameter `Addr` as an unsigned type of `env.Addr_bits` bits, in which the sum of the
case `CSkipOp` wraps around; the result is `is_variable` upon return. -/
def arg_is_variable (env : Env) (op : OpCode) (arg : Nat → Nat) : Except Fault pod_vector := do
  let num_arg ← NumArg env op
  let is_variable := pod_vector.resize [] num_arg
  -- switch(op)
  if op ∈ [EndOp, InvOp, UsrrvOp] then
    -- cases where true number of arugments = NumArg(op) == 0
    CPPAD_ASSERT_UNKNOWN ((← NumArg env.called op) == 0)
    return is_variable
  else if op ∈ [AbsOp, AcoshOp, AcosOp, AsinhOp, AsinOp, AtanhOp, AtanOp, CoshOp, CosOp,
      Expm1Op, ExpOp, Log1pOp, LogOp, SignOp, SinhOp, SinOp, SqrtOp, TanhOp, TanOp,
      UsravOp] then
    -- cases where NumArg(op) == 1
    CPPAD_ASSERT_UNKNOWN ((← NumArg env.called op) == 1)
    is_variable.assign 0 true
  else if op ∈ [BeginOp, ParOp, UsrapOp, UsrrpOp] then
    CPPAD_ASSERT_UNKNOWN ((← NumArg env.called op) == 1)
    is_variable.assign 0 false
  else if op ∈ [AddpvOp, DisOp, DivpvOp, EqpvOp, LepvOp, LtpvOp, MulpvOp, NepvOp, PowpvOp,
      SubpvOp, ZmulpvOp] then
    -- cases where NumArg(op) == 2
    CPPAD_ASSERT_UNKNOWN ((← NumArg env.called op) == 2)
    let is_variable ← is_variable.assign 0 false
    is_variable.assign 1 true
  else if op ∈ [DivvpOp, LevpOp, LtvpOp, PowvpOp, SubvpOp, ZmulvpOp] then
    CPPAD_ASSERT_UNKNOWN ((← NumArg env.called op) == 2)
    let is_variable ← is_variable.assign 0 true
    is_variable.assign 1 false
  else if op ∈ [AddvvOp, DivvvOp, EqvvOp, LevvOp, LtvvOp, MulvvOp, NevvOp, PowvvOp, SubvvOp,
      ZmulvvOp] then
    CPPAD_ASSERT_UNKNOWN ((← NumArg env.called op) == 2)
    let is_variable ← is_variable.assign 0 true
    is_variable.assign 1 true
  else if op ∈ [ErfOp] then
    CPPAD_ASSERT_UNKNOWN ((← NumArg env.called op) == 3)
    let is_variable ← is_variable.assign 0 true
    let is_variable ← is_variable.assign 1 false -- parameter index corresponding to zero
    is_variable.assign 2 false -- parameter index corresponding to one
  else if op ∈ [LdpOp, StppOp] then
    -- cases where NumArg(op) == 3
    CPPAD_ASSERT_UNKNOWN ((← NumArg env.called op) == 3)
    let is_variable ← is_variable.assign 0 false
    let is_variable ← is_variable.assign 1 false
    is_variable.assign 2 false
  else if op ∈ [LdvOp, StvpOp] then
    CPPAD_ASSERT_UNKNOWN ((← NumArg env.called op) == 3)
    let is_variable ← is_variable.assign 0 false
    let is_variable ← is_variable.assign 1 true
    is_variable.assign 2 false
  else if op ∈ [StpvOp] then
    CPPAD_ASSERT_UNKNOWN ((← NumArg env.called op) == 3)
    let is_variable ← is_variable.assign 0 false
    let is_variable ← is_variable.assign 1 false
    is_variable.assign 2 true
  else if op ∈ [StvvOp] then
    CPPAD_ASSERT_UNKNOWN ((← NumArg env.called op) == 3)
    let is_variable ← is_variable.assign 0 false
    let is_variable ← is_variable.assign 1 true
    is_variable.assign 2 true
  else if op ∈ [UserOp] then
    -- case where NumArg(op) == 4
    CPPAD_ASSERT_UNKNOWN ((← NumArg env.called op) == 4)
    pod_vector.assign_loop (fun _ => false) 4 0 is_variable
  else if op ∈ [PriOp] then
    -- case where NumArg(op) == 5
    CPPAD_ASSERT_UNKNOWN ((← NumArg env.called op) == 5)
    let is_variable ← is_variable.assign 0 false
    let is_variable ← is_variable.assign 1 ((arg 0 &&& 1) != 0)
    let is_variable ← is_variable.assign 2 false
    let is_variable ← is_variable.assign 3 ((arg 0 &&& 2) != 0)
    is_variable.assign 4 false
  else if op ∈ [CExpOp] then
    -- case where NumArg(op) == 6
    CPPAD_ASSERT_UNKNOWN ((← NumArg env.called op) == 6)
    let is_variable ← is_variable.assign 0 false
    let is_variable ← is_variable.assign 1 false
    let is_variable ← is_variable.assign 2 ((arg 0 &&& 1) != 0)
    let is_variable ← is_variable.assign 3 ((arg 0 &&& 2) != 0)
    let is_variable ← is_variable.assign 4 ((arg 0 &&& 4) != 0)
    is_variable.assign 5 ((arg 0 &&& 8) != 0)
  else if op ∈ [CSkipOp] then
    CPPAD_ASSERT_UNKNOWN ((← NumArg env.called op) == 0)
    -- true number of arguments (the sum is computed in Addr)
    let num_arg := (7 + arg 4 + arg 5) % 2 ^ env.Addr_bits
    let is_variable := pod_vector.resize is_variable num_arg
    let is_variable ← is_variable.assign 0 false
    let is_variable ← is_variable.assign 1 false
    let is_variable ← is_variable.assign 2 ((arg 1 &&& 1) != 0)
    let is_variable ← is_variable.assign 3 ((arg 1 &&& 2) != 0)
    pod_vector.assign_loop (fun _ => false) (num_arg - 4) 4 is_variable
  else if op ∈ [CSumOp] then
    CPPAD_ASSERT_UNKNOWN ((← NumArg env.called op) == 0)
    -- true number of arguments
    let num_arg := arg 4
    let is_variable := pod_vector.resize is_variable num_arg
    pod_vector.assign_loop (fun i => decide (5 ≤ i) && decide (i < arg 2)) num_arg 0
      is_variable
  else if op ∈ [EqppOp, LeppOp, LtppOp, NeppOp] then
    CPPAD_ASSERT_UNKNOWN ((← NumArg env.called op) == 2)
    let is_variable ← is_variable.assign 0 false
    is_variable.assign 1 false
  else
    -- default
    CPPAD_ASSERT_UNKNOWN false
    return is_variable

/-- The text that `buffer << std::setw( int(width) ) << value` leaves in an empty buffer, where
`value` is the text that `<< value` writes without a field width: the text, filled on the left
with spaces up to `width` characters. -/
def setw (width : Nat) (value : List Char) : List Char :=
  List.replicate (width - value.length) ' ' ++ value

/-- Prints a single field corresponding to an operator: `printOpField(os, leader, value,
width)`.  The stream `os` is the list of the characters written to it so far, and the template
parameter `Type` enters through the text `value` that `<< value` writes; the result is the
stream upon return. -/
def printOpField (os leader value : List Char) (width : Nat) : Except Fault (List Char) :=
  -- first print the leader
  let os := os ++ leader
  -- print the value into an internal buffer
  let str := setw width value
  -- length of the string
  let len := str.length
  if len > width then
    -- for(i = 0; i < width-1; i++) os << str[i];
    -- for width = 0 the unsigned bound width-1 wraps around and the loop leaves the string
    if width = 0 then .error .out_of_range
    else .ok (os ++ str.take (width - 1) ++ ['*'])
  else
    -- count number of spaces at begining
    let nspace := (str.takeWhile (fun c => c == ' ')).length
    -- left justify the string
    let os := os ++ str.drop nspace
    .ok (os ++ List.replicate (width - len + nspace) ' ')

/-- What `printOp` takes from outside the sources: the text that is written for it, and the
widths of the unsigned integer types `addr_t` (the type of the operator arguments `ind[k]`) and
`size_t`, where `addr_t` is at least as wide as `int` and `size_t` at least as wide as
`addr_t`. -/
structure print_env where
  /-- The value of `thread_alloc::in_parallel()`. -/
  in_parallel : Bool
  /-- The text written for the parameter `play->GetPar(i)`. -/
  GetPar : Nat → List Char
  /-- The text `play->GetTxt(i)`. -/
  GetTxt : Nat → List Char
  /-- The text `atomic_base<Base>::class_name(i)`. -/
  class_name : Nat → List Char
  /-- The text `discrete<Base>::name(i)`. -/
  discrete_name : Nat → List Char
  /-- The number of bits of `addr_t`: a sum of an `int` and values of type `addr_t` is computed
  modulo `2 ^ addr_t_bits`. -/
  addr_t_bits : Nat
  /-- The number of bits of `size_t`: a sum with a term of type `size_t` is computed modulo
  `2 ^ size_t_bits`. -/
  size_t_bits : Nat

/-- The static table `CompareOpName` of `printOp`. -/
def CompareOpName : List String := ["Lt", "Le", "Eq", "Ge", "Gt", "Ne"]

/-- The decimal text written for an unsigned integer. -/
def text (n : Nat) : List Char := (toString n).toList

/-- An assertion in `printOp`: a failure ends the call with the fault and the stream as it is
at that point. -/
def assert_at (os : List Char) (exp : Bool) (f : Fault) : Except (Fault × List Char) Unit :=
  if exp then .ok () else .error (f, os)

/-- A call made by `printOp` that can end with a fault: the fault ends `printOp`, with the
stream as it is at that point. -/
def call_at {α : Type} (os : List Char) (r : Except Fault α) : Except (Fault × List Char) α :=
  match r with
  | .ok a => .ok a
  | .error f => .error (f, os)

/-- A call `printOpField(os, leader, value, width)` made by `printOp`. -/
def field (os : List Char) (leader : String) (value : List Char) (width : Nat) :
    Except (Fault × List Char) (List Char) :=
  call_at os (printOpField os leader.toList value width)

/-- The assertion `CPPAD_ASSERT_UNKNOWN( NumArg(op) == k )` in `printOp`. -/
def assert_NumArg_at (os : List Char) (env : Env) (op : OpCode) (k : Nat) :
    Except (Fault × List Char) Unit := do
  let narg ← call_at os (NumArg env op)
  assert_at os (narg == k) .assert_unknown

/-- The loop `for(i = start; i < start + count; i++) printOpField(os, leader, value(i), ncol)`
of `printOp`. -/
def fields (leader : String) (value : Nat → List Char) (ncol : Nat) :
    (count start : Nat) → List Char → Except (Fault × List Char) (List Char)
  | 0, _, os => .ok os
  | count + 1, start, os => do
    let os ← field os leader (value start) ncol
    fields leader value ncol count (start + 1) os

/-- Prints a single operator and its operands: `printOp(os, play, i_op, i_var, op, ind)`. The
result is the stream upon return, or the fault with the stream at the point of the fault. -/
def printOp (env : Env) (P : print_env) (os : List Char) (i_op i_var : Nat) (op : OpCode)
    (ind : Nat → Nat) : Except (Fault × List Char) (List Char) := do
  assert_at os (!P.in_parallel)
    (.assert_known "cannot print trace of AD operations in parallel mode")
  -- print operator
  let os ← field os "o=" (text i_op) 5
  let nres ← call_at os (NumRes env op)
  let os ← if nres > 0 && op != BeginOp then field os "v=" (text i_var) 5
    else field os "v=" [] 5
  let os ← if op == CExpOp || op == CSkipOp then do
      let name ← call_at os (OpName op)
      let os ← field os "" name.toList 5
      let rel ← call_at os (if h : ind 0 < CompareOpName.length
        then .ok (CompareOpName.get ⟨ind 0, h⟩) else .error .out_of_range)
      field os "" rel.toList 3
    else do
      let name ← call_at os (OpName op)
      field os "" name.toList 8
  -- print other fields
  let ncol := 5
  -- switch( op )
  if op ∈ [CSkipOp] then
    -- the index 6+ind[4]+ind[5] and the sum ind[4]+ind[5] are computed in addr_t
    assert_at os (ind ((6 + ind 4 + ind 5) % 2 ^ P.addr_t_bits)
      == (ind 4 + ind 5) % 2 ^ P.addr_t_bits) .assert_unknown
    assert_at os (ind 1 != 0) .assert_unknown
    let os ← if (ind 1 &&& 1) != 0 then field os " vl=" (text (ind 2)) ncol
      else field os " pl=" (P.GetPar (ind 2)) ncol
    let os ← if (ind 1 &&& 2) != 0 then field os " vr=" (text (ind 3)) ncol
      else field os " pr=" (P.GetPar (ind 3)) ncol
    -- the index 6+i is computed in size_t
    let os ← if ind 4 < 3 then
        fields " ot=" (fun i => text (ind ((6 + i) % 2 ^ P.size_t_bits))) ncol (ind 4) 0 os
      else do
        let os ← field os "\n\tot=" (text (ind (6 + 0))) ncol
        fields " ot=" (fun i => text (ind ((6 + i) % 2 ^ P.size_t_bits))) ncol (ind 4 - 1) 1 os
    -- the index 6+ind[4]+i is the sum 6+ind[4] in addr_t, to which i is added in size_t
    if ind 5 < 3 then
      fields " of="
        (fun i => text (ind (((6 + ind 4) % 2 ^ P.addr_t_bits + i) % 2 ^ P.size_t_bits)))
        ncol (ind 5) 0 os
    else do
      let os ← field os "\n\tof=" (text (ind ((6 + ind 4 + 0) % 2 ^ P.addr_t_bits))) ncol
      fields " of="
        (fun i => text (ind (((6 + ind 4) % 2 ^ P.addr_t_bits + i) % 2 ^ P.size_t_bits)))
        ncol (ind 5 - 1) 1 os
  else if op ∈ [CSumOp] then
    assert_at os (ind (ind 4) == ind 4) .assert_unknown
    let os ← field os " pr=" (P.GetPar (ind 0)) ncol
    let os ← fields " +v=" (fun i => text (ind i)) ncol (ind 1 - 5) 5 os
    let os ← fields " -v=" (fun i => text (ind i)) ncol (ind 2 - ind 1) (ind 1) os
    let os ← fields " +d=" (fun i => P.GetPar (ind i)) ncol (ind 3 - ind 2) (ind 2) os
    fields " -d=" (fun i => P.GetPar (ind i)) ncol (ind 4 - ind 3) (ind 3) os
  else if op ∈ [LdpOp] then
    assert_NumArg_at os env op 3
    let os ← field os "off=" (text (ind 0)) ncol
    field os "idx=" (text (ind 1)) ncol
  else if op ∈ [LdvOp] then
    assert_NumArg_at os env op 3
    let os ← field os "off=" (text (ind 0)) ncol
    field os "  v=" (text (ind 1)) ncol
  else if op ∈ [StppOp] then
    assert_NumArg_at os env op 3
    let os ← field os "off=" (text (ind 0)) ncol
    let os ← field os "idx=" (text (ind 1)) ncol
    field os " pr=" (P.GetPar (ind 2)) ncol
  else if op ∈ [StpvOp] then
    assert_NumArg_at os env op 3
    let os ← field os "off=" (text (ind 0)) ncol
    let os ← field os "idx=" (text (ind 1)) ncol
    field os " vr=" (text (ind 2)) ncol
  else if op ∈ [StvpOp] then
    assert_NumArg_at os env op 3
    let os ← field os "off=" (text (ind 0)) ncol
    let os ← field os " vl=" (text (ind 1)) ncol
    field os " pr=" (P.GetPar (ind 2)) ncol
  else if op ∈ [StvvOp] then
    assert_NumArg_at os env op 3
    let os ← field os "off=" (text (ind 0)) ncol
    let os ← field os " vl=" (text (ind 1)) ncol
    field os " vr=" (text (ind 2)) ncol
  else if op ∈ [AddvvOp, DivvvOp, EqvvOp, LevvOp, LtvvOp, NevvOp, MulvvOp, PowvvOp, SubvvOp,
      ZmulvvOp] then
    assert_NumArg_at os env op 2
    let os ← field os " vl=" (text (ind 0)) ncol
    field os " vr=" (text (ind 1)) ncol
  else if op ∈ [AddpvOp, EqpvOp, DivpvOp, LepvOp, LtpvOp, NepvOp, SubpvOp, MulpvOp, PowpvOp,
      ZmulpvOp] then
    assert_NumArg_at os env op 2
    let os ← field os " pl=" (P.GetPar (ind 0)) ncol
    field os " vr=" (text (ind 1)) ncol
  else if op ∈ [DivvpOp, LevpOp, LtvpOp, PowvpOp, SubvpOp, ZmulvpOp] then
    assert_NumArg_at os env op 2
    let os ← field os " vl=" (text (ind 0)) ncol
    field os " pr=" (P.GetPar (ind 1)) ncol
  else if op ∈ [AbsOp, AcosOp, AcoshOp, AsinOp, AsinhOp, AtanOp, AtanhOp, CosOp, CoshOp, ExpOp,
      Expm1Op, LogOp, Log1pOp, SignOp, SinOp, SinhOp, SqrtOp, UsravOp, TanOp, TanhOp] then
    assert_NumArg_at os env op 1
    field os "  v=" (text (ind 0)) ncol
  else if op ∈ [ErfOp] then
    assert_NumArg_at os env op 3
    -- ind[1] points to the parameter 0
    -- ind[2] points to the parameter 2 / sqrt(pi)
    field os "  v=" (text (ind 0)) ncol
  else if op ∈ [ParOp, UsrapOp, UsrrpOp] then
    assert_NumArg_at os env op 1
    field os "  p=" (P.GetPar (ind 0)) ncol
  else if op ∈ [UserOp] then
    assert_NumArg_at os env op 4
    let name := P.class_name (ind 0)
    let os ← field os " f=" name ncol
    let os ← field os " i=" (text (ind 1)) ncol
    let os ← field os " n=" (text (ind 2)) ncol
    field os " m=" (text (ind 3)) ncol
  else if op ∈ [PriOp] then
    -- CPPAD_ASSERT_NARG_NRES(op, 5, 0)
    assert_NumArg_at os env op 5
    let nres ← call_at os (NumRes env.called op)
    assert_at os (nres == 0) .assert_unknown
    let os ← if (ind 0 &&& 1) != 0 then field os " v=" (text (ind 1)) ncol
      else field os " p=" (P.GetPar (ind 1)) ncol
    let os := os ++ "before=\"".toList ++ P.GetTxt (ind 2) ++ "\"".toList
    let os ← if (ind 0 &&& 2) != 0 then field os " v=" (text (ind 3)) ncol
      else field os " p=" (P.GetPar (ind 3)) ncol
    return os ++ "after=\"".toList ++ P.GetTxt (ind 4) ++ "\"".toList
  else if op ∈ [BeginOp] then
    -- argument not used (created by independent)
    assert_NumArg_at os env op 1
    return os
  else if op ∈ [EndOp, InvOp, UsrrvOp] then
    assert_NumArg_at os env op 0
    return os
  else if op ∈ [DisOp] then
    assert_NumArg_at os env op 2
    let name := P.discrete_name (ind 0)
    let os ← field os " f=" name ncol
    field os " x=" (text (ind 1)) ncol
  else if op ∈ [CExpOp] then
    assert_at os (ind 1 != 0) .assert_unknown
    assert_NumArg_at os env op 6
    let os ← if (ind 1 &&& 1) != 0 then field os " vl=" (text (ind 2)) ncol
      else field os " pl=" (P.GetPar (ind 2)) ncol
    let os ← if (ind 1 &&& 2) != 0 then field os " vr=" (text (ind 3)) ncol
      else field os " pr=" (P.GetPar (ind 3)) ncol
    let os ← if (ind 1 &&& 4) != 0 then field os " vt=" (text (ind 4)) ncol
      else field os " pt=" (P.GetPar (ind 4)) ncol
    if (ind 1 &&& 8) != 0 then field os " vf=" (text (ind 5)) ncol
    else field os " pf=" (P.GetPar (ind 5)) ncol
  else if op ∈ [EqppOp, LeppOp, LtppOp, NeppOp] then
    assert_NumArg_at os env op 2
    let os ← field os " pl=" (P.GetPar (ind 0)) ncol
    field os " pr=" (P.GetPar (ind 1)) ncol
  else
    -- default
    assert_at os false .assert_unknown
    return os

/-! ## The tape recorder -/

/-- Modelled from the spec: the Tape Recorder with its Parameter Pool (the class `recorder`,
member `Rec_` of a tape, is declared outside the sources).  It is the mutable recording target:
an instruction stream (`op_vec_`), the flat argument stream (`arg_vec_`), the append-only
parameter pool (`all_par_vec_`, each entry with its dynamic/constant flag in `dyn_par_is_`) and
the number of variable indices assigned so far (`num_var_rec_`). -/
structure recorder (Base : Type) where
  /-- The operators of the recorded instructions, in recording order. -/
  op_vec_ : List OpCode
  /-- The operand addresses of the recorded instructions, in recording order. -/
  arg_vec_ : List Nat
  /-- The scalar values of the parameter pool. -/
  all_par_vec_ : List Base
  /-- For each pool entry, whether it is a dynamic parameter. -/
  dyn_par_is_ : List Bool
  /-- Number of variable indices assigned so far. -/
  num_var_rec_ : Nat

/-- Modelled from the spec: `PutArg(arg0, arg1)` appends two resolved operand addresses to the
argument stream. -/
def recorder.PutArg {Base : Type} (r : recorder Base) (arg0 arg1 : Nat) : recorder Base :=
  { r with arg_vec_ := r.arg_vec_ ++ [arg0, arg1] }

/-- Modelled from the spec: `PutOp(op)` appends one instruction of kind `op`, assigns the next
`NumResTable[op]` sequential variable indices to its results and returns the index of the last
of them (the result variable index), paired with the recorder after the call. -/
def recorder.PutOp {Base : Type} (r : recorder Base) (op : OpCode) : Nat × recorder Base :=
  let num_var := r.num_var_rec_ + NumResTable.getD op 0
  (num_var - 1, { r with op_vec_ := r.op_vec_ ++ [op], num_var_rec_ := num_var })

/-- Modelled from the spec: `put_con_par(par)` interns the constant `par` as a new entry of the
parameter pool (without looking for an equal entry) and returns its parameter index, paired with
the recorder after the call. -/
def recorder.put_con_par {Base : Type} (r : recorder Base) (par : Base) : Nat × recorder Base :=
  (r.all_par_vec_.length,
    { r with all_par_vec_ := r.all_par_vec_ ++ [par], dyn_par_is_ := r.dyn_par_is_ ++ [false] })

/-- The part of `local::ADTape<Base>` that `operator /=` uses: the tape identity `id_` and the
recorder `Rec_`. -/
structure ADTape (Base : Type) where
  /-- Unique identifier of the tape. -/
  id_ : Nat
  /-- The recording of the tape. -/
  Rec_ : recorder Base

/-! ## `div_eq.hpp` -/

/-- The operations of the template parameter `Base` that `operator /=` uses; they are declared
outside the sources and are taken as given. -/
structure BaseOps (Base : Type) where
  /-- The quotient computed by `Base::operator /=`. -/
  div : Base → Base → Base
  /-- The function `IdenticalOne(x)`. -/
  IdenticalOne : Base → Bool
  /-- The function `IdenticalZero(x)`. -/
  IdenticalZero : Base → Bool

/-- The data members of an `AD<Base>` object. -/
structure AD (Base : Type) where
  /-- Value of the object. -/
  value_ : Base
  /-- Identity of the tape the object was last recorded on, `0` if none. -/
  tape_id_ : Nat
  /-- Address on that tape: a variable index, or a parameter index when `dynamic_`. -/
  taddr_ : Nat
  /-- Whether the object is a dynamic parameter (rather than a variable) on its tape. -/
  dynamic_ : Bool

/-- The state that `operator /=` reads and writes: the object `*this` and the tape that
`tape_ptr()` points to (`none` for the null pointer).  The operand `right` is a reference to a
constant object; it enters as the object it denotes before the call and is not part of the
state (`AD.operator_div_eq_at` has the objects in a store). -/
structure St (Base : Type) where
  /-- The left operand `*this`. -/
  self : AD Base
  /-- The tape that is recording, if any. -/
  tape : Option (ADTape Base)

/-- The pair of assertions `CPPAD_ASSERT_UNKNOWN( local::NumRes(op) == 1 )` and
`CPPAD_ASSERT_UNKNOWN( local::NumArg(op) == 2 )` that opens each recording branch. -/
def assert_NumRes_NumArg (env : Env) (op : OpCode) : Except Fault Unit := do
  let nres ← NumRes env op
  CPPAD_ASSERT_UNKNOWN (nres == 1)
  let narg ← NumArg env op
  CPPAD_ASSERT_UNKNOWN (narg == 2)

/-- The computed assignment `AD<Base>& AD<Base>::operator /= (const AD<Base> &right)`, applied to
`*this = self` while `tape_ptr()` returns `tape_ptr`.  The result is the state upon return, or
the fault together with the state at the point of the fault. -/
def AD.operator_div_eq {Base : Type} (env : Env) (B : BaseOps Base)
    (tape_ptr : Option (ADTape Base)) (self right : AD Base) :
    Except (Fault × St Base) (St Base) :=
  -- compute the Base part
  let left := self.value_
  let self := { self with value_ := B.div self.value_ right.value_ }
  -- check if there is a recording in progress
  match tape_ptr with
  | none => .ok ⟨self, none⟩
  | some tape =>
    let tape_id := tape.id_
    -- tape_id cannot match the default value for tape_id_; i.e., 0
    if ¬ (tape_id > 0) then .error (.assert_unknown, ⟨self, some tape⟩) else
    -- check if left and right tapes match
    let match_left := decide (self.tape_id_ = tape_id)
    let match_right := decide (right.tape_id_ = tape_id)
    -- check if left and right are dynamic parameters
    let dyn_left := match_left && self.dynamic_
    let dyn_right := match_right && right.dynamic_
    -- check if left and right are variables
    let var_left := match_left && !self.dynamic_
    let var_right := match_right && !right.dynamic_
    if ¬ (decide (self.tape_id_ = right.tape_id_) || !match_left || !match_right) then
      .error (.assert_known "/= : AD variables or dynamic parameters on different threads.",
        ⟨self, some tape⟩)
    else if var_left then
      if var_right then
        -- this = variable / variable
        match assert_NumRes_NumArg env DivvvOp with
        | .error f => .error (f, ⟨self, some tape⟩)
        | .ok _ =>
          -- put operand addresses in tape
          let Rec1 := tape.Rec_.PutArg self.taddr_ right.taddr_
          -- put operator in the tape
          let put := Rec1.PutOp DivvvOp
          let self := { self with taddr_ := put.1 }
          let tape := { tape with Rec_ := put.2 }
          -- make this a variable
          if ¬ (self.tape_id_ = tape_id) then .error (.assert_unknown, ⟨self, some tape⟩) else
          .ok ⟨self, some tape⟩
      else if B.IdenticalOne right.value_ then
        -- this = variable * 1
        .ok ⟨self, some tape⟩
      else
        -- this = variable / parameter
        match assert_NumRes_NumArg env DivvpOp with
        | .error f => .error (f, ⟨self, some tape⟩)
        | .ok _ =>
          -- put operand addresses in tape
          let con := tape.Rec_.put_con_par right.value_
          let p := if ¬ dyn_right then con.1 else right.taddr_
          let Rec0 := if ¬ dyn_right then con.2 else tape.Rec_
          let Rec1 := Rec0.PutArg self.taddr_ p
          -- put operator in the tape
          let put := Rec1.PutOp DivvpOp
          let self := { self with taddr_ := put.1 }
          let tape := { tape with Rec_ := put.2 }
          -- make this a variable
          if ¬ (self.tape_id_ = tape_id) then .error (.assert_unknown, ⟨self, some tape⟩) else
          .ok ⟨self, some tape⟩
    else if var_right then
      if B.IdenticalZero left then
        -- this = 0 / variable
        .ok ⟨self, some tape⟩
      else
        -- this = parameter / variable
        match assert_NumRes_NumArg env DivpvOp with
        | .error f => .error (f, ⟨self, some tape⟩)
        | .ok _ =>
          if ¬ (!dyn_left) then
            .error (.assert_known "binary /=: left operand is a dynamic parameter",
              ⟨self, some tape⟩)
          else
          -- put operand addresses in tape
          let con := tape.Rec_.put_con_par left
          let Rec1 := con.2.PutArg con.1 right.taddr_
          -- put operator in the tape
          let put := Rec1.PutOp DivpvOp
          let self := { self with taddr_ := put.1 }
          -- make this a variable
          let self := { self with tape_id_ := tape_id }
          .ok ⟨self, some { tape with Rec_ := put.2 }⟩
    else
      if ¬ (!(dyn_left || dyn_right)) then
        .error (.assert_known
          "binary /=: one operand is a dynamic parameter and other not a variable",
          ⟨self, some tape⟩)
      else
      .ok ⟨self, some tape⟩

/-- The call `a /= b` for two objects of a store `mem`: `*this` is the object at address `i`
and the reference `right` denotes the object at address `j`, which is `*this` itself when
`j = i` (the call `x /= x`).  In that call both operands have the same classification, so only
the branch `variable / variable` and the last branch can run; neither reads `right.value_`
after `value_` has been assigned, and `right.taddr_` is read before `taddr_` is assigned, hence
`operator /=` computes what it computes on the two objects as they are before the call.  The
result is the store and the tape upon return, or the fault with the store and the tape at the
point of the fault: the only object that is assigned is `*this`. -/
def AD.operator_div_eq_at {Base : Type} (env : Env) (B : BaseOps Base)
    (tape_ptr : Option (ADTape Base)) (mem : Nat → AD Base) (i j : Nat) :
    Except (Fault × (Nat → AD Base) × Option (ADTape Base))
      ((Nat → AD Base) × Option (ADTape Base)) :=
  match AD.operator_div_eq env B tape_ptr (mem i) (mem j) with
  | .ok s => .ok (Function.update mem i s.self, s.tape)
  | .error (f, s) => .error (f, Function.update mem i s.self, s.tape)

/-! ## `speed/cppad/ode.cpp` -/

/-- What `link_ode` uses from outside the sources, for values of type `double` (`R`),
`AD<double>` (`A`) and `ADFun<double>` (`F`); `W` is the state that these routines share
besides their arguments (the generator of random numbers, the tape that is recording). -/
structure ode_env (R A F W : Type) where
  /-- The value `1.` of type `double`. -/
  one : R
  /-- A default constructed `AD<double>`. -/
  AD_default : A
  /-- The conversion of the assignment `X[j] = x[j]`. -/
  AD_of : R → A
  /-- The routine `uniform_01(n, x)`, which assigns the `n` elements of `x`. -/
  uniform_01 : (n : Nat) → (Fin n → R) → W → (Fin n → R) × W
  /-- The routine `Independent(X)`. -/
  Independent : {n : Nat} → (Fin n → A) → W → (Fin n → A) × W
  /-- The routine `CppAD::ode_evaluate(X, m, Y)`, which assigns `Y`. -/
  ode_evaluate : {n : Nat} → (Fin n → A) → Nat → List A → W → List A × W
  /-- The constructor `CppAD::ADFun<double> F(X, Y)`. -/
  ADFun : {n : Nat} → (Fin n → A) → List A → W → F × W
  /-- The member function `F.Reverse(p, w)`. -/
  Reverse : F → Nat → List R → W → List R × W

/-- The variables of `link_ode` that live across the repetitions: the arguments `x` and
`gradient`, the local vectors `X` and `Y`, and the shared state. -/
structure ode_state (R A W : Type) (n : Nat) where
  /-- The argument `x`, of size `n`. -/
  x : Fin n → R
  /-- The argument `gradient`. -/
  gradient : List R
  /-- The local vector `X`, of size `n`. -/
  X : Fin n → A
  /-- The local vector `Y`, of size 1. -/
  Y : List A
  /-- The state shared by the routines that are called. -/
  world : W

/-- One execution of the body of the loop `while(repeat--)` of `link_ode`. -/
def link_ode_body {R A F W : Type} {n : Nat} (E : ode_env R A F W) (s : ode_state R A W n) :
    ode_state R A W n :=
  let m := 0
  let w := [E.one]
  -- choose next x value
  let u := E.uniform_01 n s.x s.world
  let x := u.1
  let X : Fin n → A := fun j => E.AD_of (x j)
  -- declare the independent variable vector
  let i := E.Independent X u.2
  -- evaluate function
  let e := E.ode_evaluate i.1 m s.Y i.2
  -- create function object f : X -> Y
  let f := E.ADFun i.1 e.1 e.2
  -- use reverse mode to compute gradient
  let r := E.Reverse f.1 1 w f.2
  { x := x, gradient := r.1, X := i.1, Y := e.1, world := r.2 }

/-- The loop `while(repeat--)` of `link_ode`. -/
def link_ode_loop {R A F W : Type} {n : Nat} (E : ode_env R A F W) :
    Nat → ode_state R A W n → ode_state R A W n
  | 0, s => s
  | k + 1, s => link_ode_loop E k (link_ode_body E s)

/-- The routine `link_ode(repeat, retape, x, gradient)`, for a vector `x` of size `n`: the
value it returns and the variables upon return. -/
def link_ode {R A F W : Type} {n : Nat} (E : ode_env R A F W) (repeat_ : Nat) ( _retape : Bool)
    (x : Fin n → R) (gradient : List R) (world : W) : Bool × ode_state R A W n :=
  -- setup
  let s : ode_state R A W n :=
    { x := x, gradient := gradient, X := fun _ => E.AD_default, Y := [E.AD_default],
      world := world }
  (true, link_ode_loop E repeat_ s)

/-- A call made by `link_ode`, with its arguments as they are when the call is made (a vector
as the list of its elements). -/
inductive ode_call (R A F : Type) where
  /-- The call `uniform_01(n, x)`. -/
  | uniform_01 (n : Nat) (x : List R)
  /-- The call `Independent(X)`. -/
  | Independent (X : List A)
  /-- The call `ode_evaluate(X, m, Y)`. -/
  | ode_evaluate (X : List A) (m : Nat) (Y : List A)
  /-- The construction `ADFun<double> F(X, Y)`. -/
  | ADFun (X : List A) (Y : List A)
  /-- The call `F.Reverse(p, w)` of the function object `f`. -/
  | Reverse (f : F) (p : Nat) (w : List R)

/-- The environment `E` with a record of the calls: each routine does what it does in `E` and
adds its call, with its arguments, at the end of the record. -/
def ode_env.logged {R A F W : Type} (E : ode_env R A F W) :
    ode_env R A F (W × List (ode_call R A F)) where
  one := E.one
  AD_default := E.AD_default
  AD_of := E.AD_of
  uniform_01 := fun n x w => ((E.uniform_01 n x w.1).1,
    ((E.uniform_01 n x w.1).2, w.2 ++ [.uniform_01 n (List.ofFn x)]))
  Independent := fun X w => ((E.Independent X w.1).1,
    ((E.Independent X w.1).2, w.2 ++ [.Independent (List.ofFn X)]))
  ode_evaluate := fun X m Y w => ((E.ode_evaluate X m Y w.1).1,
    ((E.ode_evaluate X m Y w.1).2, w.2 ++ [.ode_evaluate (List.ofFn X) m Y]))
  ADFun := fun X Y w => ((E.ADFun X Y w.1).1,
    ((E.ADFun X Y w.1).2, w.2 ++ [.ADFun (List.ofFn X) Y]))
  Reverse := fun f p v w => ((E.Reverse f p v w.1).1,
    ((E.Reverse f p v w.1).2, w.2 ++ [.Reverse f p v]))

/-! ## Vocabulary of the statements -/

/-- The environment passes the checks of `NumArg` and `NumRes` that do not depend on the
operator: no first call in parallel mode and, when `NumArg` runs its first-call block, a plain
old data type `opcode_t` that can hold every operator code. -/
def Env.ok (env : Env) : Prop :=
  env.first_call_parallel = false ∧
    (env.first = true → env.is_pod_opcode_t = true ∧ NumberOp < env.opcode_t_max)

instance (env : Env) : Decidable env.ok := by
  unfold Env.ok; infer_instance

/-- The recorder `r'` is the recorder `r` with exactly the operators `ops`, the arguments `args`
and the constant parameters `pars` appended, in this order, and nothing else. -/
def recorder.appended {Base : Type} (r r' : recorder Base) (ops : List OpCode) (args : List Nat)
    (pars : List Base) : Prop :=
  r'.op_vec_ = r.op_vec_ ++ ops ∧ r'.arg_vec_ = r.arg_vec_ ++ args ∧
    r'.all_par_vec_ = r.all_par_vec_ ++ pars ∧
    r'.dyn_par_is_ = r.dyn_par_is_ ++ pars.map (fun _ => false)

/-- The object `x` is a variable on the tape with identity `tape_id`. -/
def AD.is_variable {Base : Type} (x : AD Base) (tape_id : Nat) : Prop :=
  x.tape_id_ = tape_id ∧ x.dynamic_ = false

/-- The object `x` is a dynamic parameter on the tape with identity `tape_id`. -/
def AD.is_dynamic {Base : Type} (x : AD Base) (tape_id : Nat) : Prop :=
  x.tape_id_ = tape_id ∧ x.dynamic_ = true

instance {Base : Type} (x : AD Base) (t : Nat) : Decidable (x.is_variable t) := by
  unfold AD.is_variable; infer_instance

instance {Base : Type} (x : AD Base) (t : Nat) : Decidable (x.is_dynamic t) := by
  unfold AD.is_dynamic; infer_instance

/-- The characters that a call `printOpField(os, leader, value, width)` writes after the leader
(none, if the call does not return). -/
def printOpField_chars (value : List Char) (width : Nat) : List Char :=
  match printOpField [] [] value width with
  | .ok s => s
  | .error _ => []

/-! ## Sample inputs -/

/-- An environment that passes the first-call checks, with an 8 bit `opcode_t` and a 32 bit
`Addr`. -/
def env8 : Env := ⟨false, true, true, 255, 32⟩

/-- Integers as `Base`, with truncating division. -/
def intOps : BaseOps Int := ⟨fun a b => a / b, fun x => x == 1, fun x => x == 0⟩

/-- A tape with identity 2 on which two independent variables (indices 1 and 2) and one dynamic
parameter (pool index 1, after the constant at pool index 0) have been recorded. -/
def tape2 : ADTape Int := ⟨2, ⟨[BeginOp, InvOp, InvOp], [0], [7, 9], [false, true], 3⟩⟩

/-- A variable of `tape2` with index 1 and value 6. -/
def x_var : AD Int := ⟨6, 2, 1, false⟩

/-- A variable of `tape2` with index 2 and value 3. -/
def y_var : AD Int := ⟨3, 2, 2, false⟩

/-- The constant 3, on no tape. -/
def c_three : AD Int := ⟨3, 0, 0, false⟩

/-- The constant 1, on no tape. -/
def c_one : AD Int := ⟨1, 0, 0, false⟩

/-- The dynamic parameter of `tape2` at pool index 1, with value 6. -/
def p_dyn : AD Int := ⟨6, 2, 1, true⟩

/-- A dynamic parameter of the finished tape with identity 1, with value 6. -/
def p_stale : AD Int := ⟨6, 1, 1, true⟩

/-- A variable with index 1 of the tape with identity 3, which is recording on another thread,
with value 3. -/
def z_other : AD Int := ⟨3, 3, 1, false⟩

/-- Number of argument slots that a `CSkipOp` instruction occupies: by the layout in the
enumeration its last slot is `arg[6 + arg[4] + arg[5]]`. -/
def CSkipOp_num_slots (arg : Nat → Nat) : Nat := 7 + arg 4 + arg 5

/-- Number of argument slots that a `CSumOp` instruction occupies: by the layout in the
enumeration its last slot is `arg[arg[4]]`. -/
def CSumOp_num_slots (arg : Nat → Nat) : Nat := arg 4 + 1

/-- The layout of a `CSumOp` instruction, as the enumeration describes it: the four ends of the
index ranges start at slot 5 and are in order, and the trailing slot repeats `arg[4]`. -/
def CSumOp_layout (arg : Nat → Nat) : Prop :=
  5 ≤ arg 1 ∧ arg 1 ≤ arg 2 ∧ arg 2 ≤ arg 3 ∧ arg 3 ≤ arg 4 ∧ arg (arg 4) = arg 4

instance (arg : Nat → Nat) : Decidable (CSumOp_layout arg) := by
  unfold CSumOp_layout; infer_instance

/-- The last two characters of a name. -/
def last_two (name : String) : List Char := name.data.drop (name.data.length - 2)

/-- Strict lexicographic order on lists of characters, by character code. -/
def lex_lt : List Char → List Char → Bool
  | [], [] => false
  | [], _ :: _ => true
  | _ :: _, [] => false
  | a :: as, b :: bs => decide (a.toNat < b.toNat) || (a.toNat == b.toNat && lex_lt as bs)

/-- Strict lexicographic order on names that ignores the case of letters. -/
def caseless_lt (a b : String) : Bool :=
  lex_lt (a.data.map Char.toLower) (b.data.map Char.toLower)

/-- The case labels of the `switch` in `arg_is_variable`, in the order of the source; the
`default` label stands for every other value. -/
def arg_is_variable_labels : List OpCode :=
  [EndOp, InvOp, UsrrvOp,
    AbsOp, AcoshOp, AcosOp, AsinhOp, AsinOp, AtanhOp, AtanOp, CoshOp, CosOp, Expm1Op, ExpOp,
    Log1pOp, LogOp, SignOp, SinhOp, SinOp, SqrtOp, TanhOp, TanOp, UsravOp,
    BeginOp, ParOp, UsrapOp, UsrrpOp,
    AddpvOp, DisOp, DivpvOp, EqpvOp, LepvOp, LtpvOp, MulpvOp, NepvOp, PowpvOp, SubpvOp,
    ZmulpvOp,
    DivvpOp, LevpOp, LtvpOp, PowvpOp, SubvpOp, ZmulvpOp,
    AddvvOp, DivvvOp, EqvvOp, LevvOp, LtvvOp, MulvvOp, NevvOp, PowvvOp, SubvvOp, ZmulvvOp,
    ErfOp, LdpOp, StppOp, LdvOp, StvpOp, StpvOp, StvvOp, UserOp, PriOp, CExpOp, CSkipOp,
    CSumOp, EqppOp, LeppOp, LtppOp, NeppOp]

/-- The arguments of the instruction recorded for `CondExpLt(x, p0, p1, p2)` with `x` the
variable with index 3 and `p0`, `p1`, `p2` the parameters with indices 0, 1, 2: `arg[0]` is the
comparison `Lt` (number 0) and the flag `arg[1] = 1` says that only `left` is a variable. -/
def cexp_lt_args : Nat → Nat := fun k => [0, 1, 3, 0, 1, 2].getD k 0

/-- The arguments of `cexp_lt_args` with the comparison `Le` (number 1) in place of `Lt`. -/
def cexp_le_args : Nat → Nat := fun k => [1, 1, 3, 0, 1, 2].getD k 0

/-- The arguments of a `CSkipOp` instruction that compares a variable with a variable and
skips one operation if true and two if false. -/
def cskip_args : Nat → Nat := fun k => [0, 3, 1, 2, 1, 2, 5, 6, 7, 3].getD k 0

/-- The arguments of a `CSumOp` instruction with one addition variable (index 3), one
subtraction variable (index 4) and no dynamic parameters; its trailing slot is `arg[7] = 7`. -/
def csum_args : Nat → Nat := fun k => [0, 6, 7, 7, 7, 3, 4, 7].getD k 0

/-- The dynamic parameter of `tape2` at pool index 1, with value 0. -/
def p_zero : AD Int := ⟨0, 2, 1, true⟩

/-- A sample of what `printOp` prints for parameters and names, with a 32 bit `addr_t` and a
64 bit `size_t`. -/
def print0 : print_env :=
  ⟨false, fun i => 'p' :: text i, fun i => 't' :: text i, fun _ => ['f'], fun _ => ['d'], 32,
    64⟩

/-- The arguments of a `CSkipOp` for which the sum `7 + arg[4] + arg[5] = 4294967302` does not
fit in 32 bits. -/
def cskip_wrap_args : Nat → Nat := fun k => [0, 3, 1, 2, 4294967295, 0].getD k 0

/-- The arguments of `cskip_args` with a trailing field 4 that is not `arg[4] + arg[5] = 3`. -/
def cskip_bad_args : Nat → Nat := fun k => [0, 3, 1, 2, 1, 2, 5, 6, 7, 4].getD k 0

/-- The arguments of `csum_args` with a trailing field 8 that is not `arg[4] = 7`. -/
def csum_bad_args : Nat → Nat := fun k => [0, 6, 7, 7, 7, 3, 4, 8].getD k 0

/-- A sample store: the variable `x_var` at address 0 and the variable `y_var` elsewhere. -/
def mem_xy : Nat → AD Int := fun k => if k = 0 then x_var else y_var

/-- A sample environment for `link_ode`: numbers stand for the values of all types, every
routine leaves the shared state as it is, and `Reverse` returns its weight vector. -/
def ode0 : ode_env Nat Nat Nat Unit where
  one := 1
  AD_default := 0
  AD_of := fun r => r
  uniform_01 := fun _ _ w => (fun j => j.val + 1, w)
  Independent := fun X w => (X, w)
  ode_evaluate := fun _ _ _ w => ([0], w)
  ADFun := fun _ _ w => (0, w)
  Reverse := fun _ _ v w => (v, w)

/-! ## The lookup functions on valid and invalid operator codes -/

theorem NumRes_eq_ok (env : Env) (h : env.ok) (op : OpCode) (hop : op < NumberOp) :
    NumRes env op = .ok (NumResTable.getD op 0) := by
  obtain ⟨h1, _⟩ := h
  simp [NumRes, CPPAD_ASSERT_FIRST_CALL_NOT_PARALLEL, CPPAD_ASSERT_UNKNOWN, h1, hop, NumResTable,
    bind, Except.bind, pure, Except.pure]

theorem NumArg_eq_ok (env : Env) (h : env.ok) (op : OpCode) (hop : op < NumberOp) :
    NumArg env op = .ok (NumArgTable.getD op 0) := by
  obtain ⟨h1, h2⟩ := h
  cases hf : env.first
  · simp [NumArg, CPPAD_ASSERT_FIRST_CALL_NOT_PARALLEL, CPPAD_ASSERT_UNKNOWN, h1, hop, hf,
      bind, Except.bind, pure, Except.pure]
  · obtain ⟨h3, h4⟩ := h2 hf
    simp [NumArg, CPPAD_ASSERT_FIRST_CALL_NOT_PARALLEL, CPPAD_ASSERT_UNKNOWN, h1, hop, hf, h3, h4,
      NumArgTable, bind, Except.bind, pure, Except.pure]

theorem OpName_eq_ok (op : OpCode) (hop : op < NumberOp) :
    OpName op = .ok (OpNameTable.getD op "") := by
  simp [OpName, CPPAD_ASSERT_UNKNOWN, hop, OpNameTable, bind, Except.bind, pure, Except.pure]

theorem getElem?_eq_getD_of_lt {α : Type} (l : List α) (d : α) (i : Nat) (h : i < l.length) :
    l[i]? = some (l.getD i d) := by
  simp [List.getD_eq_getElem?_getD, List.getElem?_eq_getElem h]

theorem exists_error_of_ne_ok {ε α : Type} (r : Except ε α) (h : ∀ a, r ≠ .ok a) :
    ∃ e, r = .error e := by
  cases r with
  | error e => exact ⟨e, rfl⟩
  | ok a => exact absurd rfl (h a)

theorem NumArg_ne_ok (env : Env) (op : OpCode) (hop : NumberOp ≤ op) (n : Nat) :
    NumArg env op ≠ .ok n := by
  have hop' : ¬ op < 70 := Nat.not_lt.mpr hop
  intro h
  cases hp : env.first_call_parallel <;> cases hf : env.first <;>
    cases hd : env.is_pod_opcode_t <;> by_cases hm : 70 < env.opcode_t_max <;>
    simp [NumArg, CPPAD_ASSERT_FIRST_CALL_NOT_PARALLEL, CPPAD_ASSERT_UNKNOWN, hp, hf, hd, hm,
      hop', NumArgTable, bind, Except.bind, pure, Except.pure] at h

theorem NumRes_ne_ok (env : Env) (op : OpCode) (hop : NumberOp ≤ op) (n : Nat) :
    NumRes env op ≠ .ok n := by
  have hop' : ¬ op < 70 := Nat.not_lt.mpr hop
  intro h
  cases hp : env.first_call_parallel <;>
    simp [NumRes, CPPAD_ASSERT_FIRST_CALL_NOT_PARALLEL, CPPAD_ASSERT_UNKNOWN, hp,
      hop', NumResTable, bind, Except.bind] at h

theorem OpName_ne_ok (op : OpCode) (hop : NumberOp ≤ op) (n : String) :
    OpName op ≠ .ok n := by
  have hop' : ¬ op < 70 := Nat.not_lt.mpr hop
  intro h
  simp [OpName, CPPAD_ASSERT_UNKNOWN, hop', OpNameTable, bind, Except.bind] at h

/-! ## The assertions that open a recording branch -/

theorem assert_NumRes_NumArg_ok (env : Env) (h : env.ok) (op : OpCode) (hop : op < NumberOp)
    (hres : NumResTable.getD op 0 = 1) (harg : NumArgTable.getD op 0 = 2) :
    assert_NumRes_NumArg env op = .ok () := by
  rw [assert_NumRes_NumArg, NumRes_eq_ok env h op hop, NumArg_eq_ok env h op hop, hres, harg]
  rfl

theorem assert_Divvv_ok (env : Env) (h : env.ok) : assert_NumRes_NumArg env DivvvOp = .ok () :=
  assert_NumRes_NumArg_ok env h DivvvOp (by decide) (by decide) (by decide)

theorem assert_Divvp_ok (env : Env) (h : env.ok) : assert_NumRes_NumArg env DivvpOp = .ok () :=
  assert_NumRes_NumArg_ok env h DivvpOp (by decide) (by decide) (by decide)

theorem assert_Divpv_ok (env : Env) (h : env.ok) : assert_NumRes_NumArg env DivpvOp = .ok () :=
  assert_NumRes_NumArg_ok env h DivpvOp (by decide) (by decide) (by decide)

theorem assert_ok_of_three (env : Env) (henv : env.ok) (op : OpCode)
    (hop : op = DivvvOp ∨ op = DivvpOp ∨ op = DivpvOp) :
    NumArg env op = .ok 2 ∧ NumRes env op = .ok 1 ∧ assert_NumRes_NumArg env op = .ok () := by
  rcases hop with rfl | rfl | rfl
  · exact ⟨NumArg_eq_ok env henv _ (by decide), NumRes_eq_ok env henv _ (by decide),
      assert_Divvv_ok env henv⟩
  · exact ⟨NumArg_eq_ok env henv _ (by decide), NumRes_eq_ok env henv _ (by decide),
      assert_Divvp_ok env henv⟩
  · exact ⟨NumArg_eq_ok env henv _ (by decide), NumRes_eq_ok env henv _ (by decide),
      assert_Divpv_ok env henv⟩

/-! ## The recorder calls made by `operator /=` -/

theorem appended_PutArg_PutOp {Base : Type} (r : recorder Base) (a b : Nat) (op : OpCode) :
    r.appended ((r.PutArg a b).PutOp op).2 [op] [a, b] [] := by
  simp [recorder.appended, recorder.PutArg, recorder.PutOp]

theorem appended_put_con_par {Base : Type} (r : recorder Base) (v : Base) (a b : Nat)
    (op : OpCode) :
    r.appended (((r.put_con_par v).2.PutArg a b).PutOp op).2 [op] [a, b] [v] := by
  simp [recorder.appended, recorder.PutArg, recorder.PutOp, recorder.put_con_par]

theorem PutOp_fst {Base : Type} (r : recorder Base) (op : OpCode)
    (hres : NumResTable.getD op 0 = 1) : (r.PutOp op).1 = r.num_var_rec_ := by
  simp only [recorder.PutOp, hres]
  omega

/-- With an environment that passes the first-call checks, the only faults of `operator /=` are
failed `CPPAD_ASSERT_KNOWN`s, unless the tape identity is zero. -/
theorem div_eq_faults_when_env_ok {Base : Type} (env : Env) (B : BaseOps Base)
    (tape_ptr : Option (ADTape Base)) (self right : AD Base) (henv : env.ok) (f : Fault)
    (s : St Base) (h : AD.operator_div_eq env B tape_ptr self right = .error (f, s)) :
    (∃ msg, f = .assert_known msg) ∨ ∃ tape, tape_ptr = some tape ∧ tape.id_ = 0 := by
  cases tape_ptr with
  | none => simp [AD.operator_div_eq] at h
  | some tape =>
    by_cases hid : 0 < tape.id_
    swap
    · exact Or.inr ⟨tape, rfl, by omega⟩
    left
    by_cases hml : self.tape_id_ = tape.id_ <;> by_cases hmr : right.tape_id_ = tape.id_ <;>
      cases hdl : self.dynamic_ <;> cases hdr : right.dynamic_ <;>
      simp [AD.operator_div_eq, hid, hml, hmr, hdl, hdr, assert_Divvv_ok env henv,
        assert_Divvp_ok env henv, assert_Divpv_ok env henv] at h
    all_goals (repeat' split at h)
    all_goals first
      | (simp at h; done)
      | (cases h; exact ⟨_, rfl⟩)
      | exact ⟨_, h.1.symm⟩

/-- Whatever fault ends a call of `operator /=`, the tape at the point of the fault is the tape
before the call. -/
theorem div_eq_fault_leaves_tape {Base : Type} (env : Env) (B : BaseOps Base)
    (tape : ADTape Base) (self right : AD Base) (f : Fault) (s : St Base)
    (h : AD.operator_div_eq env B (some tape) self right = .error (f, s)) :
    s.tape = some tape := by
  by_cases hid : 0 < tape.id_
  swap
  · simp [AD.operator_div_eq, hid] at h
    rw [← h.2]
  by_cases hml : self.tape_id_ = tape.id_ <;> by_cases hmr : right.tape_id_ = tape.id_ <;>
    cases hdl : self.dynamic_ <;> cases hdr : right.dynamic_ <;>
    simp [AD.operator_div_eq, hid, hml, hmr, hdl, hdr] at h
  all_goals (repeat' split at h)
  all_goals first
    | (simp at h; done)
    | (cases h; rfl)
    | (rw [← h.2])

/-! ## `operator /=`: the recording branches -/

/-- Claim C1: while a tape is recording, if both operands are variables on that tape, then
`operator /=` appends exactly one `DivvvOp` whose arguments are the left operand's old `taddr_`
and the right operand's `taddr_`, in this order, adds no constant parameter, stores the index
returned by `PutOp(DivvvOp)` into the left operand's `taddr_`, and the left operand is still a
variable on the same tape. -/
theorem div_eq_variable_variable {Base : Type} (env : Env) (B : BaseOps Base)
    (tape : ADTape Base) (self right : AD Base) (henv : env.ok) (hid : 0 < tape.id_)
    (hl : self.is_variable tape.id_) (hr : right.is_variable tape.id_) :
    ∃ s tape', AD.operator_div_eq env B (some tape) self right = .ok s ∧
      s.tape = some tape' ∧ tape'.id_ = tape.id_ ∧
      tape'.Rec_ = ((tape.Rec_.PutArg self.taddr_ right.taddr_).PutOp DivvvOp).2 ∧
      tape.Rec_.appended tape'.Rec_ [DivvvOp] [self.taddr_, right.taddr_] [] ∧
      s.self.taddr_ = ((tape.Rec_.PutArg self.taddr_ right.taddr_).PutOp DivvvOp).1 ∧
      s.self.is_variable tape.id_ := by
  obtain ⟨hl1, hl2⟩ := hl
  obtain ⟨hr1, hr2⟩ := hr
  refine ⟨⟨⟨B.div self.value_ right.value_, self.tape_id_,
      ((tape.Rec_.PutArg self.taddr_ right.taddr_).PutOp DivvvOp).1, self.dynamic_⟩,
      some ⟨tape.id_, ((tape.Rec_.PutArg self.taddr_ right.taddr_).PutOp DivvvOp).2⟩⟩, _, ?_, rfl,
    rfl, rfl, appended_PutArg_PutOp _ _ _ _, rfl, hl1, hl2⟩
  simp [AD.operator_div_eq, hl1, hl2, hr1, hr2, hid, assert_Divvv_ok env henv]

/-- Claim C1 at the variables `x_var` and `y_var` of `tape2`. -/
theorem div_eq_variable_variable_witness :
    ∃ s tape', AD.operator_div_eq env8 intOps (some tape2) x_var y_var = .ok s ∧
      s.tape = some tape' ∧ tape'.id_ = tape2.id_ ∧
      tape'.Rec_ = ((tape2.Rec_.PutArg x_var.taddr_ y_var.taddr_).PutOp DivvvOp).2 ∧
      tape2.Rec_.appended tape'.Rec_ [DivvvOp] [x_var.taddr_, y_var.taddr_] [] ∧
      s.self.taddr_ = ((tape2.Rec_.PutArg x_var.taddr_ y_var.taddr_).PutOp DivvvOp).1 ∧
      s.self.is_variable tape2.id_ :=
  div_eq_variable_variable env8 intOps tape2 x_var y_var (by decide) (by decide) (by decide)
    (by decide)

/-- Claim C2: while a tape is recording, if the left operand is a variable on the tape, the right
operand is not a variable and the right value is not identically one, then `operator /=` appends
exactly one `DivvpOp` with arguments (left's old `taddr_`, `p`) and stores the index returned by
`PutOp(DivvpOp)` into the left operand's `taddr_`.  When the right operand is a dynamic parameter
of the tape, `p` is its own `taddr_` and no constant is interned; when it is not on the tape, `p`
is the index returned by `put_con_par(right.value_)` and exactly that one constant is
interned. -/
theorem div_eq_variable_parameter {Base : Type} (env : Env) (B : BaseOps Base)
    (tape : ADTape Base) (self right : AD Base) (henv : env.ok) (hid : 0 < tape.id_)
    (hl : self.is_variable tape.id_) (hr : ¬ right.is_variable tape.id_)
    (hone : B.IdenticalOne right.value_ = false) :
    ∃ s tape' p Rec0, AD.operator_div_eq env B (some tape) self right = .ok s ∧
      s.tape = some tape' ∧ tape'.id_ = tape.id_ ∧
      tape'.Rec_ = ((Rec0.PutArg self.taddr_ p).PutOp DivvpOp).2 ∧
      s.self.taddr_ = ((Rec0.PutArg self.taddr_ p).PutOp DivvpOp).1 ∧
      (right.is_dynamic tape.id_ ∨ right.tape_id_ ≠ tape.id_) ∧
      (right.is_dynamic tape.id_ →
        p = right.taddr_ ∧ Rec0 = tape.Rec_ ∧
        tape.Rec_.appended tape'.Rec_ [DivvpOp] [self.taddr_, right.taddr_] []) ∧
      (right.tape_id_ ≠ tape.id_ →
        p = (tape.Rec_.put_con_par right.value_).1 ∧
        Rec0 = (tape.Rec_.put_con_par right.value_).2 ∧
        tape.Rec_.appended tape'.Rec_ [DivvpOp]
          [self.taddr_, (tape.Rec_.put_con_par right.value_).1] [right.value_]) := by
  obtain ⟨hl1, hl2⟩ := hl
  by_cases hm : right.tape_id_ = tape.id_
  · have hd : right.dynamic_ = true := by
      cases hd : right.dynamic_
      · exact absurd ⟨hm, hd⟩ hr
      · rfl
    refine ⟨⟨⟨B.div self.value_ right.value_, self.tape_id_,
        ((tape.Rec_.PutArg self.taddr_ right.taddr_).PutOp DivvpOp).1, self.dynamic_⟩,
        some ⟨tape.id_, ((tape.Rec_.PutArg self.taddr_ right.taddr_).PutOp DivvpOp).2⟩⟩,
      _, right.taddr_, tape.Rec_, ?_, rfl, rfl, rfl, rfl, Or.inl ⟨hm, hd⟩, ?_, ?_⟩
    · simp [AD.operator_div_eq, hl1, hl2, hm, hd, hid, hone, assert_Divvp_ok env henv]
    · intro _
      exact ⟨rfl, rfl, appended_PutArg_PutOp _ _ _ _⟩
    · intro h
      exact absurd hm h
  · refine ⟨⟨⟨B.div self.value_ right.value_, self.tape_id_,
        (((tape.Rec_.put_con_par right.value_).2.PutArg self.taddr_
          (tape.Rec_.put_con_par right.value_).1).PutOp DivvpOp).1, self.dynamic_⟩,
        some ⟨tape.id_, (((tape.Rec_.put_con_par right.value_).2.PutArg self.taddr_
          (tape.Rec_.put_con_par right.value_).1).PutOp DivvpOp).2⟩⟩,
      _, (tape.Rec_.put_con_par right.value_).1, (tape.Rec_.put_con_par right.value_).2,
      ?_, rfl, rfl, rfl, rfl, Or.inr hm, ?_, ?_⟩
    · simp [AD.operator_div_eq, hl1, hl2, hm, hid, hone, assert_Divvp_ok env henv]
    · intro h
      exact absurd h.1 hm
    · intro _
      exact ⟨rfl, rfl, appended_put_con_par _ _ _ _ _⟩

/-- Claim C2 at the variable `x_var` of `tape2` divided by the constant `c_three`. -/
theorem div_eq_variable_parameter_witness :
    ∃ s tape' p Rec0, AD.operator_div_eq env8 intOps (some tape2) x_var c_three = .ok s ∧
      s.tape = some tape' ∧ tape'.id_ = tape2.id_ ∧
      tape'.Rec_ = ((Rec0.PutArg x_var.taddr_ p).PutOp DivvpOp).2 ∧
      s.self.taddr_ = ((Rec0.PutArg x_var.taddr_ p).PutOp DivvpOp).1 ∧
      (c_three.is_dynamic tape2.id_ ∨ c_three.tape_id_ ≠ tape2.id_) ∧
      (c_three.is_dynamic tape2.id_ →
        p = c_three.taddr_ ∧ Rec0 = tape2.Rec_ ∧
        tape2.Rec_.appended tape'.Rec_ [DivvpOp] [x_var.taddr_, c_three.taddr_] []) ∧
      (c_three.tape_id_ ≠ tape2.id_ →
        p = (tape2.Rec_.put_con_par c_three.value_).1 ∧
        Rec0 = (tape2.Rec_.put_con_par c_three.value_).2 ∧
        tape2.Rec_.appended tape'.Rec_ [DivvpOp]
          [x_var.taddr_, (tape2.Rec_.put_con_par c_three.value_).1] [c_three.value_]) :=
  div_eq_variable_parameter env8 intOps tape2 x_var c_three (by decide) (by decide) (by decide)
    (by decide) (by decide)

/-- Claim C3, evaluated where it fails: the left operand `p_stale` is not on the recording tape
(its `tape_id_` is 1, the tape's identity is 2), its value 6 is not identically zero and its
stored `dynamic_` flag is set; the right operand `y_var` is a variable on the tape.  One
`DivpvOp` with a new constant 6 is appended and `tape_id_` becomes the tape's identity, but
`dynamic_` is still set: the left operand is now classified as a dynamic parameter of the
recording tape and not as a variable. -/
theorem div_eq_stale_dynamic_left_stays_dynamic :
    ∃ s tape', AD.operator_div_eq env8 intOps (some tape2) p_stale y_var = .ok s ∧
      s.tape = some tape' ∧
      tape2.Rec_.appended tape'.Rec_ [DivpvOp] [2, 2] [6] ∧
      s.self.taddr_ = 3 ∧ s.self.tape_id_ = tape2.id_ ∧ s.self.dynamic_ = true ∧
      s.self.is_dynamic tape2.id_ ∧ ¬ s.self.is_variable tape2.id_ := by
  refine ⟨⟨⟨2, 2, 3, true⟩, some ⟨2, ⟨[BeginOp, InvOp, InvOp, DivpvOp], [0, 2, 2], [7, 9, 6],
    [false, true, false], 4⟩⟩⟩, _, rfl, rfl, ?_, rfl, rfl, rfl, ?_, ?_⟩
  · simp [recorder.appended, tape2]
  · decide
  · decide

/-! ## `operator /=`: the short-circuits and the faults -/

/-- Claim C4: while a tape is recording, if the left operand is a variable on the tape and the
right operand is not a variable and its value is identically one (be it a constant or a dynamic
parameter of the tape), then `operator /=` raises no fault, leaves the tape as it was (no
operator, no argument, no parameter is appended) and leaves the left operand's `taddr_` and
`tape_id_` as they were. -/
theorem div_eq_variable_identical_one {Base : Type} (env : Env) (B : BaseOps Base)
    (tape : ADTape Base) (self right : AD Base) (hid : 0 < tape.id_)
    (hl : self.is_variable tape.id_) (hr : ¬ right.is_variable tape.id_)
    (hone : B.IdenticalOne right.value_ = true) :
    ∃ s, AD.operator_div_eq env B (some tape) self right = .ok s ∧
      s.tape = some tape ∧ s.self.taddr_ = self.taddr_ ∧ s.self.tape_id_ = self.tape_id_ := by
  obtain ⟨hl1, hl2⟩ := hl
  refine ⟨⟨⟨B.div self.value_ right.value_, self.tape_id_, self.taddr_, self.dynamic_⟩,
    some tape⟩, ?_, rfl, rfl, rfl⟩
  by_cases hm : right.tape_id_ = tape.id_
  · have hd : right.dynamic_ = true := by
      cases hd : right.dynamic_
      · exact absurd ⟨hm, hd⟩ hr
      · rfl
    simp [AD.operator_div_eq, hl1, hl2, hm, hd, hid, hone]
  · simp [AD.operator_div_eq, hl1, hl2, hm, hid, hone]

/-- Claim C4 at the variable `x_var` of `tape2` divided by the constant `c_one`. -/
theorem div_eq_variable_identical_one_witness :
    ∃ s, AD.operator_div_eq env8 intOps (some tape2) x_var c_one = .ok s ∧
      s.tape = some tape2 ∧ s.self.taddr_ = x_var.taddr_ ∧ s.self.tape_id_ = x_var.tape_id_ :=
  div_eq_variable_identical_one env8 intOps tape2 x_var c_one (by decide) (by decide)
    (by decide) (by decide)

/-- Claim C5 as stated fails: dividing the dynamic parameter `p_dyn` of the recording tape by the
constant `c_one`, whose value is identically one, ends with the usage fault of the last branch
and not with a normal return. -/
theorem div_eq_dynamic_by_one_is_fault :
    AD.operator_div_eq env8 intOps (some tape2) p_dyn c_one =
        .error (.assert_known
          "binary /=: one operand is a dynamic parameter and other not a variable",
          ⟨p_dyn, some tape2⟩) ∧
      ¬ ∃ s, AD.operator_div_eq env8 intOps (some tape2) p_dyn c_one = .ok s := by
  have h : AD.operator_div_eq env8 intOps (some tape2) p_dyn c_one =
      .error (.assert_known
        "binary /=: one operand is a dynamic parameter and other not a variable",
        ⟨p_dyn, some tape2⟩) := rfl
  refine ⟨h, ?_⟩
  rintro ⟨s, hs⟩
  rw [h] at hs
  cases hs

/-- Claim C5, amended: while a tape is recording, if the left operand is a dynamic parameter of
the recording tape and the right operand is a constant whose value is identically one, then
`operator /=` raises the usage fault "binary /=: one operand is a dynamic parameter and other not
a variable"; at the fault nothing has been appended to the tape and the left operand's `taddr_`
and `tape_id_` are unchanged. -/
theorem div_eq_dynamic_by_constant_one_faults {Base : Type} (env : Env) (B : BaseOps Base)
    (tape : ADTape Base) (self right : AD Base) (hid : 0 < tape.id_)
    (hl : self.is_dynamic tape.id_) (hr : right.tape_id_ ≠ tape.id_)
    (_hone : B.IdenticalOne right.value_ = true) :
    ∃ s, AD.operator_div_eq env B (some tape) self right =
        .error (.assert_known
          "binary /=: one operand is a dynamic parameter and other not a variable", s) ∧
      s.tape = some tape ∧ s.self.taddr_ = self.taddr_ ∧ s.self.tape_id_ = self.tape_id_ := by
  obtain ⟨hl1, hl2⟩ := hl
  refine ⟨⟨⟨B.div self.value_ right.value_, self.tape_id_, self.taddr_, self.dynamic_⟩,
    some tape⟩, ?_, rfl, rfl, rfl⟩
  simp [AD.operator_div_eq, hl1, hl2, hr, hid]

/-- The amended claim C5 at the dynamic parameter `p_dyn` of `tape2` divided by `c_one`. -/
theorem div_eq_dynamic_by_constant_one_faults_witness :
    ∃ s, AD.operator_div_eq env8 intOps (some tape2) p_dyn c_one =
        .error (.assert_known
          "binary /=: one operand is a dynamic parameter and other not a variable", s) ∧
      s.tape = some tape2 ∧ s.self.taddr_ = p_dyn.taddr_ ∧ s.self.tape_id_ = p_dyn.tape_id_ :=
  div_eq_dynamic_by_constant_one_faults env8 intOps tape2 p_dyn c_one (by decide) (by decide)
    (by decide) (by decide)

/-- Claim C6, evaluated where it fails: while the tape with identity 2 is recording, the left
operand `x_var` is a variable of that tape and the right operand `z_other` carries the identity
3 of another tape (both identities are non-zero and differ).  The assertion with the message
"/= : AD variables or dynamic parameters on different threads." is there for this case, but its
condition `tape_id_ == right.tape_id_ || ! match_left || ! match_right` holds, `match_right`
being false.  No fault is raised: the value of `z_other` is interned as a constant parameter
and one `DivvpOp` is appended. -/
theorem div_eq_other_tape_recorded_as_constant :
    (∃ s tape', AD.operator_div_eq env8 intOps (some tape2) x_var z_other = .ok s ∧
      s.tape = some tape' ∧
      tape2.Rec_.appended tape'.Rec_ [DivvpOp] [1, 2] [3]) ∧
    ¬ ∃ f s, AD.operator_div_eq env8 intOps (some tape2) x_var z_other = .error (f, s) := by
  have h : AD.operator_div_eq env8 intOps (some tape2) x_var z_other =
      .ok ⟨⟨2, 2, 3, false⟩, some ⟨2, ⟨[BeginOp, InvOp, InvOp, DivvpOp], [0, 1, 2], [7, 9, 3],
        [false, true, false], 4⟩⟩⟩ := rfl
  refine ⟨⟨_, _, h, rfl, ?_⟩, ?_⟩
  · simp [recorder.appended, tape2]
  · rintro ⟨f, s, hs⟩
    rw [h] at hs
    cases hs

/-- Claim C7: on every input on which `operator /=` raises a usage fault (a `CPPAD_ASSERT_KNOWN`
fails), the tape at the point of the fault is the tape before the call: no `PutArg`,
`put_con_par` or `PutOp` has been executed. -/
theorem div_eq_usage_fault_leaves_tape {Base : Type} (env : Env) (B : BaseOps Base)
    (tape_ptr : Option (ADTape Base)) (self right : AD Base) (msg : String) (s : St Base)
    (h : AD.operator_div_eq env B tape_ptr self right = .error (.assert_known msg, s)) :
    s.tape = tape_ptr := by
  unfold AD.operator_div_eq at h
  cases tape_ptr with
  | none => simp at h
  | some tape =>
    simp only at h
    repeat' split at h
    all_goals first
      | (simp at h; done)
      | (simp at h; obtain ⟨-, rfl⟩ := h; rfl)

/-- Claim C7 at the usage fault raised when the dynamic parameter `p_dyn` of `tape2` is divided
by the variable `y_var`. -/
theorem div_eq_usage_fault_leaves_tape_witness :
    AD.operator_div_eq env8 intOps (some tape2) p_dyn y_var =
        .error (.assert_known "binary /=: left operand is a dynamic parameter",
          ⟨⟨2, 2, 1, true⟩, some tape2⟩) ∧
      (⟨⟨2, 2, 1, true⟩, some tape2⟩ : St Int).tape = some tape2 :=
  ⟨rfl, div_eq_usage_fault_leaves_tape env8 intOps (some tape2) p_dyn y_var
    "binary /=: left operand is a dynamic parameter" ⟨⟨2, 2, 1, true⟩, some tape2⟩ rfl⟩

/-! ## `operator /=`: what a call can append -/

/-- Claim C8: on every pair of operands on which `operator /=` does not fault, the call either
leaves the tape as it was or appends exactly one operator, drawn from `DivvvOp`, `DivvpOp`,
`DivpvOp`, together with exactly `NumArg(op) = 2` arguments and at most one constant parameter.
For each of the three operators `NumArg(op) = 2` and `NumRes(op) = 1`, so the assertions on
`NumArg` and `NumRes` inside `operator /=` hold; with them holding, the only faults of
`operator /=` are its `CPPAD_ASSERT_KNOWN`s (and the assertion on a zero tape identity). -/
theorem div_eq_appends_nothing_or_one {Base : Type} (env : Env) (B : BaseOps Base)
    (tape_ptr : Option (ADTape Base)) (self right : AD Base) :
    (∀ s, AD.operator_div_eq env B tape_ptr self right = .ok s →
      s.tape = tape_ptr ∨
      ∃ tape tape' op a b pars, tape_ptr = some tape ∧ s.tape = some tape' ∧
        tape'.id_ = tape.id_ ∧ (op = DivvvOp ∨ op = DivvpOp ∨ op = DivpvOp) ∧
        tape.Rec_.appended tape'.Rec_ [op] [a, b] pars ∧ pars.length ≤ 1 ∧
        NumArgTable.getD op 0 = 2 ∧ NumResTable.getD op 0 = 1) ∧
    (env.ok → ∀ op, op = DivvvOp ∨ op = DivvpOp ∨ op = DivpvOp →
      NumArg env op = .ok 2 ∧ NumRes env op = .ok 1 ∧ assert_NumRes_NumArg env op = .ok ()) ∧
    (env.ok → ∀ f s, AD.operator_div_eq env B tape_ptr self right = .error (f, s) →
      (∃ msg, f = .assert_known msg) ∨ ∃ tape, tape_ptr = some tape ∧ tape.id_ = 0) := by
  refine ⟨?_, fun henv op hop => assert_ok_of_three env henv op hop,
    fun henv f s h => div_eq_faults_when_env_ok env B tape_ptr self right henv f s h⟩
  intro s h
  cases tape_ptr with
  | none =>
    left
    simp [AD.operator_div_eq] at h
    rw [← h]
  | some tape =>
    by_cases hid : 0 < tape.id_
    swap
    · simp [AD.operator_div_eq, hid] at h
    by_cases hml : self.tape_id_ = tape.id_ <;> by_cases hmr : right.tape_id_ = tape.id_ <;>
      cases hdl : self.dynamic_ <;> cases hdr : right.dynamic_ <;>
      simp [AD.operator_div_eq, hid, hml, hmr, hdl, hdr] at h
    all_goals (repeat' split at h)
    all_goals first
      | (simp at h; done)
      | (cases h
         first
           | exact Or.inl rfl
           | exact Or.inr ⟨tape, _, DivvvOp, _, _, [], rfl, rfl, rfl, Or.inl rfl,
               appended_PutArg_PutOp _ _ _ _, by simp, by decide, by decide⟩
           | exact Or.inr ⟨tape, _, DivvpOp, _, _, [], rfl, rfl, rfl, Or.inr (Or.inl rfl),
               appended_PutArg_PutOp _ _ _ _, by simp, by decide, by decide⟩
           | exact Or.inr ⟨tape, _, DivvpOp, _, _, [_], rfl, rfl, rfl, Or.inr (Or.inl rfl),
               appended_put_con_par _ _ _ _ _, by simp, by decide, by decide⟩
           | exact Or.inr ⟨tape, _, DivpvOp, _, _, [_], rfl, rfl, rfl, Or.inr (Or.inr rfl),
               appended_put_con_par _ _ _ _ _, by simp, by decide, by decide⟩)

/-- Claim C8 at the constant `c_three` divided by the variable `y_var` of `tape2` (one `DivpvOp`
is appended), at the three operators, and at the fault of `p_dyn` divided by `c_one`. -/
theorem div_eq_appends_nothing_or_one_witness :
    (∃ s, AD.operator_div_eq env8 intOps (some tape2) c_three y_var = .ok s ∧
      (s.tape = some tape2 ∨
        ∃ tape tape' op a b pars, some tape2 = some tape ∧ s.tape = some tape' ∧
          tape'.id_ = tape.id_ ∧ (op = DivvvOp ∨ op = DivvpOp ∨ op = DivpvOp) ∧
          tape.Rec_.appended tape'.Rec_ [op] [a, b] pars ∧ pars.length ≤ 1 ∧
          NumArgTable.getD op 0 = 2 ∧ NumResTable.getD op 0 = 1)) ∧
    (NumArg env8 DivpvOp = .ok 2 ∧ NumRes env8 DivpvOp = .ok 1 ∧
      assert_NumRes_NumArg env8 DivpvOp = .ok ()) ∧
    ((∃ msg, Fault.assert_known
          "binary /=: one operand is a dynamic parameter and other not a variable" =
        Fault.assert_known msg) ∨
      ∃ tape, some tape2 = some tape ∧ tape.id_ = 0) :=
  ⟨⟨⟨⟨1, 2, 3, false⟩, some ⟨2, ⟨[BeginOp, InvOp, InvOp, DivpvOp], [0, 2, 2], [7, 9, 3],
      [false, true, false], 4⟩⟩⟩, rfl,
      (div_eq_appends_nothing_or_one env8 intOps (some tape2) c_three y_var).1 _ rfl⟩,
    (div_eq_appends_nothing_or_one env8 intOps (some tape2) c_three y_var).2.1 (by decide)
      DivpvOp (Or.inr (Or.inr rfl)),
    (div_eq_appends_nothing_or_one env8 intOps (some tape2) p_dyn c_one).2.2 (by decide)
      _ ⟨p_dyn, some tape2⟩ rfl⟩

/-- Claim C9: no forward references.  `PutOp` returns a variable index that is not below the
number `num_var_rec_` of variable indices assigned before the call; if each variable operand's
`taddr_` was assigned before the call (is below `num_var_rec_`), then every variable argument of
the instruction appended by `operator /=` (`DivvvOp`, `DivvpOp` or `DivpvOp`) is strictly less
than the result index stored into the left operand's `taddr_`, and every parameter argument is
either the existing address of a dynamic parameter of the tape or the index just returned by
`put_con_par`, which lies in the pool after the call. -/
theorem div_eq_no_forward_reference {Base : Type} (env : Env) (B : BaseOps Base)
    (tape tape' : ADTape Base) (self right : AD Base) (s : St Base)
    (hl : self.is_variable tape.id_ → self.taddr_ < tape.Rec_.num_var_rec_)
    (hr : right.is_variable tape.id_ → right.taddr_ < tape.Rec_.num_var_rec_)
    (h : AD.operator_div_eq env B (some tape) self right = .ok s) (ht : s.tape = some tape') :
    tape' = tape ∨
    ∃ op a b, tape'.Rec_.op_vec_ = tape.Rec_.op_vec_ ++ [op] ∧
      tape'.Rec_.arg_vec_ = tape.Rec_.arg_vec_ ++ [a, b] ∧
      tape.Rec_.num_var_rec_ ≤ s.self.taddr_ ∧
      (op = DivvvOp ∧ a = self.taddr_ ∧ b = right.taddr_ ∧
          a < s.self.taddr_ ∧ b < s.self.taddr_ ∨
        op = DivvpOp ∧ a = self.taddr_ ∧ a < s.self.taddr_ ∧
          (right.is_dynamic tape.id_ ∧ b = right.taddr_ ∧
              tape'.Rec_.all_par_vec_ = tape.Rec_.all_par_vec_ ∨
            b = (tape.Rec_.put_con_par right.value_).1 ∧
              tape'.Rec_.all_par_vec_ = tape.Rec_.all_par_vec_ ++ [right.value_] ∧
              b < tape'.Rec_.all_par_vec_.length) ∨
        op = DivpvOp ∧ b = right.taddr_ ∧ b < s.self.taddr_ ∧
          a = (tape.Rec_.put_con_par self.value_).1 ∧
          tape'.Rec_.all_par_vec_ = tape.Rec_.all_par_vec_ ++ [self.value_] ∧
          a < tape'.Rec_.all_par_vec_.length) := by
  by_cases hid : 0 < tape.id_
  swap
  · simp [AD.operator_div_eq, hid] at h
  have e1 : NumResTable.getD DivvvOp 0 = 1 := by decide
  have e2 : NumResTable.getD DivvpOp 0 = 1 := by decide
  have e3 : NumResTable.getD DivpvOp 0 = 1 := by decide
  by_cases hml : self.tape_id_ = tape.id_ <;> by_cases hmr : right.tape_id_ = tape.id_ <;>
    cases hdl : self.dynamic_ <;> cases hdr : right.dynamic_ <;>
    simp [AD.operator_div_eq, hid, hml, hmr, hdl, hdr] at h <;>
    simp only [AD.is_variable, hml, hmr, hdl, hdr, true_and, false_and, and_true, and_false,
      true_implies, false_implies, reduceCtorEq] at hl hr
  all_goals (repeat' split at h)
  all_goals first
    | (simp at h; done)
    | (cases h
       cases ht
       first
         | exact Or.inl rfl
         | (right
            refine ⟨DivvvOp, _, _, rfl, rfl, ?_, Or.inl ⟨rfl, rfl, rfl, ?_, ?_⟩⟩ <;>
              simp only [PutOp_fst _ _ e1] <;>
              first | exact Nat.le_refl _ | exact hl | exact hr)
         | (right
            refine ⟨DivvpOp, _, _, rfl, rfl, ?_,
              Or.inr (Or.inl ⟨rfl, rfl, ?_, Or.inl ⟨⟨hmr, hdr⟩, rfl, rfl⟩⟩)⟩ <;>
              simp only [PutOp_fst _ _ e2] <;>
              first | exact Nat.le_refl _ | exact hl)
         | (right
            refine ⟨DivvpOp, _, _, rfl, rfl, ?_,
              Or.inr (Or.inl ⟨rfl, rfl, ?_, Or.inr ⟨rfl, rfl, ?_⟩⟩)⟩ <;>
              simp only [PutOp_fst _ _ e2] <;>
              first
                | exact Nat.le_refl _
                | exact hl
                | simp [recorder.PutArg, recorder.PutOp, recorder.put_con_par])
         | (right
            refine ⟨DivpvOp, _, _, rfl, rfl, ?_,
              Or.inr (Or.inr ⟨rfl, rfl, ?_, rfl, rfl, ?_⟩)⟩ <;>
              simp only [PutOp_fst _ _ e3] <;>
              first
                | exact Nat.le_refl _
                | exact hr
                | simp [recorder.PutArg, recorder.PutOp, recorder.put_con_par]))

/-- Claim C9 at the variables `x_var` and `y_var` of `tape2`, whose indices 1 and 2 are below
the three variable indices assigned on `tape2`. -/
theorem div_eq_no_forward_reference_witness :
    (⟨2, ⟨[BeginOp, InvOp, InvOp, DivvvOp], [0, 1, 2], [7, 9], [false, true], 4⟩⟩ : ADTape Int)
        = tape2 ∨
    ∃ op a b, [BeginOp, InvOp, InvOp, DivvvOp] = tape2.Rec_.op_vec_ ++ [op] ∧
      [0, 1, 2] = tape2.Rec_.arg_vec_ ++ [a, b] ∧
      tape2.Rec_.num_var_rec_ ≤ 3 ∧
      (op = DivvvOp ∧ a = x_var.taddr_ ∧ b = y_var.taddr_ ∧ a < 3 ∧ b < 3 ∨
        op = DivvpOp ∧ a = x_var.taddr_ ∧ a < 3 ∧
          (y_var.is_dynamic tape2.id_ ∧ b = y_var.taddr_ ∧
              [7, 9] = tape2.Rec_.all_par_vec_ ∨
            b = (tape2.Rec_.put_con_par y_var.value_).1 ∧
              [7, 9] = tape2.Rec_.all_par_vec_ ++ [y_var.value_] ∧
              b < [(7 : Int), 9].length) ∨
        op = DivpvOp ∧ b = y_var.taddr_ ∧ b < 3 ∧
          a = (tape2.Rec_.put_con_par x_var.value_).1 ∧
          [7, 9] = tape2.Rec_.all_par_vec_ ++ [x_var.value_] ∧
          a < [(7 : Int), 9].length) :=
  div_eq_no_forward_reference env8 intOps tape2
    ⟨2, ⟨[BeginOp, InvOp, InvOp, DivvvOp], [0, 1, 2], [7, 9], [false, true], 4⟩⟩ x_var y_var
    ⟨⟨2, 2, 3, false⟩,
      some ⟨2, ⟨[BeginOp, InvOp, InvOp, DivvvOp], [0, 1, 2], [7, 9], [false, true], 4⟩⟩⟩
    (fun _ => by decide) (fun _ => by decide) rfl rfl

/-! ## The lookup functions are total on the enumeration -/

/-- Claim C10: each of `NumArgTable`, `NumResTable` and `OpNameTable` has exactly
`NumberOp + 1 = 71` entries, so the table-length checks pass; for every `op < NumberOp` each of
`NumArg`, `NumRes` and `OpName` returns the table entry at index `op` and no assertion fails; for
every `op ≥ NumberOp`, `NumberOp` included, each of them ends with an assertion fault. -/
theorem lookup_total_on_enumeration (env : Env) (op : OpCode) :
    (NumArgTable.length = NumberOp + 1 ∧ NumResTable.length = NumberOp + 1 ∧
      OpNameTable.length = NumberOp + 1 ∧ NumberOp + 1 = 71) ∧
    (env.ok → op < NumberOp →
      ∃ narg nres name, NumArgTable[op]? = some narg ∧ NumResTable[op]? = some nres ∧
        OpNameTable[op]? = some name ∧ NumArg env op = .ok narg ∧ NumRes env op = .ok nres ∧
        OpName op = .ok name) ∧
    (NumberOp ≤ op →
      (∃ f, NumArg env op = .error f) ∧ (∃ f, NumRes env op = .error f) ∧
        ∃ f, OpName op = .error f) := by
  refine ⟨⟨rfl, rfl, rfl, rfl⟩, ?_, ?_⟩
  · intro henv hop
    exact ⟨_, _, _,
      getElem?_eq_getD_of_lt NumArgTable 0 op (Nat.lt_of_lt_of_le hop (by decide)),
      getElem?_eq_getD_of_lt NumResTable 0 op (Nat.lt_of_lt_of_le hop (by decide)),
      getElem?_eq_getD_of_lt OpNameTable "" op (Nat.lt_of_lt_of_le hop (by decide)),
      NumArg_eq_ok env henv op hop, NumRes_eq_ok env henv op hop, OpName_eq_ok op hop⟩
  · intro hop
    exact ⟨exists_error_of_ne_ok _ (NumArg_ne_ok env op hop),
      exists_error_of_ne_ok _ (NumRes_ne_ok env op hop),
      exists_error_of_ne_ok _ (OpName_ne_ok op hop)⟩

/-- Claim C10 at `DivvvOp`, a valid operator code, and at `NumberOp`, the first invalid one. -/
theorem lookup_total_on_enumeration_witness :
    (NumArg env8 DivvvOp = .ok 2 ∧ NumRes env8 DivvvOp = .ok 1 ∧ OpName DivvvOp = .ok "Divvv") ∧
    ((∃ f, NumArg env8 NumberOp = .error f) ∧ (∃ f, NumRes env8 NumberOp = .error f) ∧
      ∃ f, OpName NumberOp = .error f) := by
  refine ⟨?_, (lookup_total_on_enumeration env8 NumberOp).2.2 (by decide)⟩
  obtain ⟨narg, nres, name, h1, h2, h3, h4, h5, h6⟩ :=
    (lookup_total_on_enumeration env8 DivvvOp).2.1 (by decide) (by decide)
  have e1 : narg = 2 := by
    have : NumArgTable[DivvvOp]? = some 2 := rfl
    rw [this] at h1
    exact (Option.some.inj h1).symm
  have e2 : nres = 1 := by
    have : NumResTable[DivvvOp]? = some 1 := rfl
    rw [this] at h2
    exact (Option.some.inj h2).symm
  have e3 : name = "Divvv" := by
    have : OpNameTable[DivvvOp]? = some "Divvv" := rfl
    rw [this] at h3
    exact (Option.some.inj h3).symm
  subst e1 e2 e3
  exact ⟨h4, h5, h6⟩

/-! ## `arg_is_variable`: auxiliary facts -/

theorem Env.called_ok (env : Env) (h : env.ok) : env.called.ok := by
  obtain ⟨_, _⟩ := h
  exact ⟨rfl, fun hf => absurd hf (by simp [Env.called])⟩

theorem env8_ok : env8.ok := by decide

/-- With an environment that passes the first-call checks, `arg_is_variable` computes on a valid
operator code other than `CSkipOp` (the one case that depends on the width of `Addr`) what it
computes in the sample environment. -/
theorem arg_is_variable_env8 (env : Env) (henv : env.ok) (op : OpCode) (hop : op < NumberOp)
    (hne : op ≠ CSkipOp) (arg : Nat → Nat) :
    arg_is_variable env op arg = arg_is_variable env8 op arg := by
  have hmem : ¬ op ∈ [CSkipOp] := by simpa using hne
  simp only [arg_is_variable, NumArg_eq_ok env henv op hop,
    NumArg_eq_ok env.called (Env.called_ok env henv) op hop,
    NumArg_eq_ok env8 env8_ok op hop,
    NumArg_eq_ok env8.called (Env.called_ok env8 env8_ok) op hop, hmem, if_false]

theorem assign_eq (v : pod_vector) (j : Nat) (b : Bool) (h : j < v.length) :
    pod_vector.assign v j b = .ok (v.set j (some b)) := by
  simp [pod_vector.assign, h]

/-- A loop of assignments that stays inside the vector returns; it assigns `f j` to every
index `j` of its range and leaves the other elements as they were. -/
theorem assign_loop_ok (f : Nat → Bool) :
    ∀ (count start : Nat) (v : pod_vector), start + count ≤ v.length →
      ∃ w, pod_vector.assign_loop f count start v = .ok w ∧ w.length = v.length ∧
        ∀ j, w[j]? = if start ≤ j ∧ j < start + count then some (some (f j)) else v[j]? := by
  intro count
  induction count with
  | zero =>
    intro start v _
    refine ⟨v, rfl, rfl, fun j => ?_⟩
    have : ¬ (start ≤ j ∧ j < start + 0) := by omega
    rw [if_neg this]
  | succ n ih =>
    intro start v h
    have hs : start < v.length := by omega
    obtain ⟨w, hw, hlen, hget⟩ := ih (start + 1) (v.set start (some (f start)))
      (by rw [List.length_set]; omega)
    refine ⟨w, ?_, ?_, fun j => ?_⟩
    · simp only [pod_vector.assign_loop, assign_eq v start (f start) hs, bind, Except.bind]
      exact hw
    · rw [hlen, List.length_set]
    · rw [hget j, List.getElem?_set]
      by_cases h1 : start = j
      · subst h1
        have : ¬ (start + 1 ≤ start ∧ start < start + 1 + n) := by omega
        rw [if_neg this, if_pos rfl, if_pos hs, if_pos (by omega)]
      · rw [if_neg h1]
        by_cases h2 : start + 1 ≤ j ∧ j < start + 1 + n
        · rw [if_pos h2, if_pos (by omega)]
        · rw [if_neg h2, if_neg (by omega)]

/-- The case `CSkipOp` of `arg_is_variable`, with an environment that passes the first-call
checks. -/
theorem arg_is_variable_CSkipOp_eq (env : Env) (henv : env.ok) (arg : Nat → Nat) :
    arg_is_variable env CSkipOp arg = (do
      let v ← pod_vector.assign
        (List.replicate ((7 + arg 4 + arg 5) % 2 ^ env.Addr_bits) none) 0 false
      let v ← pod_vector.assign v 1 false
      let v ← pod_vector.assign v 2 ((arg 1 &&& 1) != 0)
      let v ← pod_vector.assign v 3 ((arg 1 &&& 2) != 0)
      pod_vector.assign_loop (fun _ => false) ((7 + arg 4 + arg 5) % 2 ^ env.Addr_bits - 4) 4
        v) := by
  simp only [arg_is_variable, NumArg_eq_ok env henv CSkipOp (by decide),
    NumArg_eq_ok env.called (Env.called_ok env henv) CSkipOp (by decide)]
  rfl

/-- With 32 bits the sum `7 + arg[4] + arg[5]` of `cskip_wrap_args` wraps around to 6, and
`arg_is_variable` returns a vector of 6 elements. -/
theorem arg_is_variable_CSkipOp_wraps :
    arg_is_variable env8 CSkipOp cskip_wrap_args =
      .ok [some false, some false, some true, some true, some false, some false] := by
  rw [arg_is_variable_CSkipOp_eq env8 env8_ok]
  rfl

theorem arg_is_variable_CSumOp_env8 (arg : Nat → Nat) :
    arg_is_variable env8 CSumOp arg =
      pod_vector.assign_loop (fun i => decide (5 ≤ i) && decide (i < arg 2)) (arg 4) 0
        (List.replicate (arg 4) none) := rfl

/-- The sizes, and what is assigned, for `CSkipOp`, when the size that is computed in `Addr` is
at least 4. -/
theorem CSkipOp_entries (env : Env) (henv : env.ok) (arg : Nat → Nat)
    (h4 : 4 ≤ (7 + arg 4 + arg 5) % 2 ^ env.Addr_bits) :
    ∃ v, arg_is_variable env CSkipOp arg = .ok v ∧
      v.length = (7 + arg 4 + arg 5) % 2 ^ env.Addr_bits ∧
      v[2]? = some (some ((arg 1 &&& 1) != 0)) ∧
      v[3]? = some (some ((arg 1 &&& 2) != 0)) ∧
      ∀ j, j < v.length → j ≠ 2 → j ≠ 3 → v[j]? = some (some false) := by
  rw [arg_is_variable_CSkipOp_eq env henv arg]
  generalize (7 + arg 4 + arg 5) % 2 ^ env.Addr_bits = N at h4 ⊢
  simp only [bind, Except.bind]
  rw [assign_eq _ 0 _ (by simp only [List.length_replicate]; omega)]
  simp only
  rw [assign_eq _ 1 _ (by simp only [List.length_set, List.length_replicate]; omega)]
  simp only
  rw [assign_eq _ 2 _ (by simp only [List.length_set, List.length_replicate]; omega)]
  simp only
  rw [assign_eq _ 3 _ (by simp only [List.length_set, List.length_replicate]; omega)]
  simp only
  obtain ⟨w, hw, hlen, hget⟩ := assign_loop_ok (fun _ => false) (N - 4) 4
    (((((List.replicate N none).set 0 (some false)).set 1
      (some false)).set 2 (some ((arg 1 &&& 1) != 0))).set 3 (some ((arg 1 &&& 2) != 0)))
    (by simp only [List.length_set, List.length_replicate]; omega)
  simp only [List.length_set, List.length_replicate] at hlen
  refine ⟨w, hw, hlen, ?_, ?_, ?_⟩
  · rw [hget 2, if_neg (by omega)]
    simp only [List.getElem?_set, List.length_set, List.length_replicate]
    simp
    omega
  · rw [hget 3, if_neg (by omega)]
    simp only [List.getElem?_set, List.length_set, List.length_replicate]
    simp
    omega
  · intro j hj h2 h3
    rw [hget j]
    by_cases h4 : 4 ≤ j
    · rw [if_pos (by omega)]
    · rw [if_neg (by omega)]
      have : j = 0 ∨ j = 1 := by omega
      rcases this with rfl | rfl
      · simp only [List.getElem?_set, List.length_set, List.length_replicate]
        simp
        omega
      · simp only [List.getElem?_set, List.length_set, List.length_replicate]
        simp
        omega

/-- The size, and what is assigned, for `CSumOp`. -/
theorem CSumOp_entries (env : Env) (henv : env.ok) (arg : Nat → Nat) :
    ∃ v, arg_is_variable env CSumOp arg = .ok v ∧ v.length = arg 4 ∧
      ∀ j, j < arg 4 → v[j]? = some (some (decide (5 ≤ j ∧ j < arg 2))) := by
  rw [arg_is_variable_env8 env henv CSumOp (by decide) (by decide) arg,
    arg_is_variable_CSumOp_env8]
  obtain ⟨w, hw, hlen, hget⟩ := assign_loop_ok (fun i => decide (5 ≤ i) && decide (i < arg 2))
    (arg 4) 0 (List.replicate (arg 4) none) (by simp)
  simp only [List.length_replicate] at hlen
  refine ⟨w, hw, hlen, ?_⟩
  intro j hj
  rw [hget j, if_pos (by omega)]
  simp [Bool.decide_and]

/-- Every valid operator code other than `CSkipOp` and `CSumOp` has a case label, and in the
sample environment its case returns a vector of `NumArgTable[op]` assigned elements. -/
theorem arg_is_variable_fixed_env8 (op : OpCode) (hop : op < NumberOp) (h1 : op ≠ CSkipOp)
    (h2 : op ≠ CSumOp) (arg : Nat → Nat) :
    op ∈ arg_is_variable_labels ∧
      ∃ v, arg_is_variable env8 op arg = .ok v ∧ v.length = NumArgTable.getD op 0 ∧
        v.all Option.isSome = true := by
  have hop' : op < 70 := hop
  clear hop
  interval_cases op
  all_goals first
    | exact absurd rfl h1
    | exact absurd rfl h2
    | exact ⟨by decide, _, rfl, rfl, rfl⟩

theorem arg_is_variable_fixed (env : Env) (henv : env.ok) (op : OpCode)
    (hop : op < NumberOp) (h1 : op ≠ CSkipOp) (h2 : op ≠ CSumOp) (arg : Nat → Nat) :
    op ∈ arg_is_variable_labels ∧
      ∃ v n, NumArg env op = .ok n ∧ arg_is_variable env op arg = .ok v ∧ v.length = n ∧
        ∀ x ∈ v, x.isSome = true := by
  obtain ⟨hmem, v, hv, hlen, hall⟩ := arg_is_variable_fixed_env8 op hop h1 h2 arg
  exact ⟨hmem, v, _, NumArg_eq_ok env henv op hop,
    (arg_is_variable_env8 env henv op hop h1 arg).trans hv, hlen,
    fun x hx => List.all_eq_true.mp hall x hx⟩

/-- The suffix convention, in the sample environment and on the table of names. -/
theorem suffix_env8 (op : OpCode) (hop : op < NumberOp) (arg : Nat → Nat) (c1 c2 : Char)
    (h1 : c1 = 'p' ∨ c1 = 'v') (h2 : c2 = 'p' ∨ c2 = 'v')
    (hsuf : last_two (OpNameTable.getD op "") = [c1, c2]) :
    ∃ v, arg_is_variable env8 op arg = .ok v ∧
      v.drop (v.length - 2) = [some (decide (c1 = 'v')), some (decide (c2 = 'v'))] ∧
      (NumArgTable.getD op 0 = 2 → v = [some (decide (c1 = 'v')), some (decide (c2 = 'v'))]) := by
  have hop' : op < 70 := hop
  clear hop
  rcases h1 with rfl | rfl <;> rcases h2 with rfl | rfl <;> interval_cases op
  all_goals first
    | exact absurd hsuf (by decide)
    | exact ⟨_, rfl, rfl, fun _ => rfl⟩
    | exact ⟨_, rfl, rfl, fun h => absurd h (by decide)⟩

theorem ident_check : ∀ op, op < 70 →
    OpCodeIdent.getD op "" = OpNameTable.getD op "" ++ "Op" := by
  decide

set_option maxRecDepth 100000 in
theorem order_check : ∀ i, i < 70 → ∀ j, j < 70 → i < j →
    caseless_lt (OpNameTable.getD i "") (OpNameTable.getD j "") = true := by
  decide

theorem lex_lt_irrefl : ∀ l : List Char, lex_lt l l = false
  | [] => rfl
  | a :: as => by
    simp [lex_lt, lex_lt_irrefl as]

/-! ## The arity tables -/

/-- Claim C11: `NumArg` returns the value 0 for both variable-arity kinds, `NumArg(CSkipOp) = 0`
and `NumArg(CSumOp) = 0`, although an instruction of either kind occupies at least one argument
slot: at least 7 for `CSkipOp`, and at least 6 for a `CSumOp` that follows its layout. -/
theorem NumArg_variable_arity_sentinel (env : Env) (henv : env.ok) (arg : Nat → Nat) :
    NumArg env CSkipOp = .ok 0 ∧ NumArg env CSumOp = .ok 0 ∧
      0 < CSkipOp_num_slots arg ∧ 0 < CSumOp_num_slots arg ∧
      7 ≤ CSkipOp_num_slots arg ∧ (CSumOp_layout arg → 6 ≤ CSumOp_num_slots arg) := by
  refine ⟨NumArg_eq_ok env henv _ (by decide), NumArg_eq_ok env henv _ (by decide), ?_, ?_, ?_,
    ?_⟩
  · unfold CSkipOp_num_slots; omega
  · unfold CSumOp_num_slots; omega
  · unfold CSkipOp_num_slots; omega
  · intro h
    unfold CSumOp_layout at h
    unfold CSumOp_num_slots
    omega

/-- Claim C11 at the sample `CSkipOp` and `CSumOp` instructions. -/
theorem NumArg_variable_arity_sentinel_witness :
    NumArg env8 CSkipOp = .ok 0 ∧ NumArg env8 CSumOp = .ok 0 ∧
      0 < CSkipOp_num_slots cskip_args ∧ 0 < CSumOp_num_slots csum_args ∧
      7 ≤ CSkipOp_num_slots cskip_args ∧ 6 ≤ CSumOp_num_slots csum_args :=
  have h := NumArg_variable_arity_sentinel env8 (by decide) cskip_args
  have h' := NumArg_variable_arity_sentinel env8 (by decide) csum_args
  ⟨h.1, h.2.1, h.2.2.1, h'.2.2.2.1, h.2.2.2.2.1, h'.2.2.2.2.2 (by decide)⟩

/-- Claim C12 as stated fails: `NumArg(UserOp)` is 4, not the value 0 that `NumArg` returns for
`CSkipOp` and `CSumOp`, and the fixed-arity kind `EndOp` does return that value. -/
theorem NumArg_UserOp_is_not_sentinel :
    NumArg env8 CSkipOp = .ok 0 ∧ NumArg env8 CSumOp = .ok 0 ∧
      NumArg env8 UserOp = .ok 4 ∧ NumArg env8 UserOp ≠ NumArg env8 CSkipOp ∧
      NumArg env8 EndOp = NumArg env8 CSkipOp := by
  refine ⟨rfl, rfl, rfl, ?_, rfl⟩
  intro h
  have h1 : NumArg env8 UserOp = .ok 4 := rfl
  have h2 : NumArg env8 CSkipOp = .ok 0 := rfl
  rw [h1, h2] at h
  cases h

/-- Claim C12, amended: the value that `NumArg` returns for `CSkipOp` and `CSumOp` is returned
for exactly three other kinds, `EndOp`, `InvOp` and `UsrrvOp`, which have no argument; the kinds
of the user-call family have fixed arities, `NumArg(UserOp) = 4`, `NumArg(UsrapOp) =
NumArg(UsravOp) = NumArg(UsrrpOp) = 1` and `NumArg(UsrrvOp) = 0`. -/
theorem NumArg_eq_sentinel_iff (env : Env) (henv : env.ok) (op : OpCode)
    (hop : op < NumberOp) :
    (NumArg env op = NumArg env CSkipOp ↔ op ∈ [CSkipOp, CSumOp, EndOp, InvOp, UsrrvOp]) ∧
      NumArg env CSumOp = NumArg env CSkipOp ∧
      NumArg env UserOp = .ok 4 ∧ NumArg env UsrapOp = .ok 1 ∧ NumArg env UsravOp = .ok 1 ∧
      NumArg env UsrrpOp = .ok 1 ∧ NumArg env UsrrvOp = .ok 0 := by
  have h0 : NumArg env CSkipOp = .ok 0 := NumArg_eq_ok env henv _ (by decide)
  refine ⟨?_, ?_, NumArg_eq_ok env henv _ (by decide), NumArg_eq_ok env henv _ (by decide),
    NumArg_eq_ok env henv _ (by decide), NumArg_eq_ok env henv _ (by decide),
    NumArg_eq_ok env henv _ (by decide)⟩
  · rw [NumArg_eq_ok env henv op hop, h0, Except.ok.injEq]
    have hop' : op < 70 := hop
    clear hop h0 henv
    interval_cases op <;> decide
  · rw [h0]
    exact NumArg_eq_ok env henv _ (by decide)

/-- The amended claim C12 at `UsrrvOp`, the one kind of the user-call family for which `NumArg`
returns the value it returns for `CSkipOp`. -/
theorem NumArg_eq_sentinel_iff_witness :
    (NumArg env8 UsrrvOp = NumArg env8 CSkipOp ↔
        UsrrvOp ∈ [CSkipOp, CSumOp, EndOp, InvOp, UsrrvOp]) ∧
      NumArg env8 CSumOp = NumArg env8 CSkipOp ∧
      NumArg env8 UserOp = .ok 4 ∧ NumArg env8 UsrapOp = .ok 1 ∧ NumArg env8 UsravOp = .ok 1 ∧
      NumArg env8 UsrrpOp = .ok 1 ∧ NumArg env8 UsrrvOp = .ok 0 :=
  NumArg_eq_sentinel_iff env8 (by decide) UsrrvOp (by decide)

/-! ## `arg_is_variable` -/

/-- Claim C13: the suffix convention.  For every `op < NumberOp` whose `OpName` ends in "pp",
"pv", "vp" or "vv", the last two entries of the vector computed by `arg_is_variable` say, for
every argument vector, whether the first and the second letter of the suffix is 'v'; for a
binary kind with `NumArg(op) = 2` these two entries are the whole vector. -/
theorem arg_is_variable_suffix (env : Env) (henv : env.ok) (op : OpCode) (hop : op < NumberOp)
    (arg : Nat → Nat) (name : String) (c1 c2 : Char) (hname : OpName op = .ok name)
    (h1 : c1 = 'p' ∨ c1 = 'v') (h2 : c2 = 'p' ∨ c2 = 'v') (hsuf : last_two name = [c1, c2]) :
    ∃ v, arg_is_variable env op arg = .ok v ∧
      v.drop (v.length - 2) = [some (decide (c1 = 'v')), some (decide (c2 = 'v'))] ∧
      (NumArg env op = .ok 2 → v = [some (decide (c1 = 'v')), some (decide (c2 = 'v'))]) := by
  rw [OpName_eq_ok op hop, Except.ok.injEq] at hname
  subst hname
  have hne : op ≠ CSkipOp := by
    rintro rfl
    have e : last_two (OpNameTable.getD CSkipOp "") = ['i', 'p'] := by decide
    rw [e] at hsuf
    simp only [List.cons.injEq, and_true] at hsuf
    rcases h1 with rfl | rfl <;> exact absurd hsuf.1 (by decide)
  obtain ⟨v, hv, hdrop, hwhole⟩ := suffix_env8 op hop arg c1 c2 h1 h2 hsuf
  refine ⟨v, (arg_is_variable_env8 env henv op hop hne arg).trans hv, hdrop, ?_⟩
  intro h
  rw [NumArg_eq_ok env henv op hop, Except.ok.injEq] at h
  exact hwhole h

/-- Claim C13 at `DivvpOp`, whose name "Divvp" ends in "vp". -/
theorem arg_is_variable_suffix_witness :
    ∃ v, arg_is_variable env8 DivvpOp cexp_lt_args = .ok v ∧
      v.drop (v.length - 2) = [some (decide ('v' = 'v')), some (decide ('p' = 'v'))] ∧
      (NumArg env8 DivvpOp = .ok 2 →
        v = [some (decide ('v' = 'v')), some (decide ('p' = 'v'))]) :=
  arg_is_variable_suffix env8 (by decide) DivvpOp (by decide) cexp_lt_args "Divvp" 'v' 'p' rfl
    (Or.inr rfl) (Or.inl rfl) (by decide)

/-- Claim C14, evaluated where it fails.  In `cexp_lt_args` the flag `arg[1]` has bit 0 set
(`left` is a variable), yet `arg_is_variable` reports no variable at all; in `cexp_le_args`,
which differs from it in the comparison operator `arg[0]` only, entry 2 is reported as a
variable.  The case `CExpOp` tests the bits of `arg[0]` where the layout has the flag in
`arg[1]`. -/
theorem arg_is_variable_CExpOp_reads_comparison :
    arg_is_variable env8 CExpOp cexp_lt_args =
        .ok [some false, some false, some false, some false, some false, some false] ∧
      (cexp_lt_args 1).testBit 0 = true ∧
      arg_is_variable env8 CExpOp cexp_le_args =
        .ok [some false, some false, some true, some false, some false, some false] ∧
      ∀ k, k ≠ 0 → cexp_le_args k = cexp_lt_args k := by
  refine ⟨rfl, rfl, rfl, ?_⟩
  intro k hk
  cases k with
  | zero => exact absurd rfl hk
  | succ n => rfl

/-- Claim C15: for `CSkipOp` and every argument vector whose sum `7 + arg[4] + arg[5]` fits in
the unsigned type `Addr` (the sum, which the code computes in `Addr`, does not wrap around),
`arg_is_variable` returns a vector of size `7 + arg[4] + arg[5]`, which is one more than the
index `6 + arg[4] + arg[5]` of the trailing length field; entry 2 is true iff
`(arg[1] & 1) != 0`, entry 3 is true iff `(arg[1] & 2) != 0`, and every other entry is false. -/
theorem arg_is_variable_CSkipOp (env : Env) (henv : env.ok) (arg : Nat → Nat)
    (hw : 7 + arg 4 + arg 5 < 2 ^ env.Addr_bits) :
    ∃ v, arg_is_variable env CSkipOp arg = .ok v ∧
      v.length = 7 + arg 4 + arg 5 ∧ v.length = (6 + arg 4 + arg 5) + 1 ∧
      v[2]? = some (some ((arg 1 &&& 1) != 0)) ∧
      v[3]? = some (some ((arg 1 &&& 2) != 0)) ∧
      ∀ j, j < v.length → j ≠ 2 → j ≠ 3 → v[j]? = some (some false) := by
  have hN : (7 + arg 4 + arg 5) % 2 ^ env.Addr_bits = 7 + arg 4 + arg 5 := Nat.mod_eq_of_lt hw
  obtain ⟨v, hv, hlen, h2, h3, hrest⟩ := CSkipOp_entries env henv arg (by rw [hN]; omega)
  rw [hN] at hlen
  exact ⟨v, hv, hlen, by omega, h2, h3, hrest⟩

/-- Claim C15 at the sample `CSkipOp` instruction, with a 32 bit `Addr`. -/
theorem arg_is_variable_CSkipOp_witness :
    7 + cskip_args 4 + cskip_args 5 < 2 ^ env8.Addr_bits ∧
    ∃ v, arg_is_variable env8 CSkipOp cskip_args = .ok v ∧
      v.length = 7 + cskip_args 4 + cskip_args 5 ∧
      v.length = (6 + cskip_args 4 + cskip_args 5) + 1 ∧
      v[2]? = some (some ((cskip_args 1 &&& 1) != 0)) ∧
      v[3]? = some (some ((cskip_args 1 &&& 2) != 0)) ∧
      ∀ j, j < v.length → j ≠ 2 → j ≠ 3 → v[j]? = some (some false) :=
  ⟨by decide, arg_is_variable_CSkipOp env8 (by decide) cskip_args (by decide)⟩

/-- Claim C16: for `CSumOp` and every argument vector (in particular one with
`5 ≤ arg[2] ≤ arg[4]`), `arg_is_variable` returns a vector of size `arg[4]` in which entry `j`
is true iff `5 ≤ j < arg[2]`; it is false for the initial parameter and the four end fields
(`j < 5`) and for all dynamic parameter entries (`arg[2] ≤ j`). -/
theorem arg_is_variable_CSumOp (env : Env) (henv : env.ok) (arg : Nat → Nat)
    (_h : 5 ≤ arg 2 ∧ arg 2 ≤ arg 4) :
    ∃ v, arg_is_variable env CSumOp arg = .ok v ∧ v.length = arg 4 ∧
      (∀ j, j < arg 4 → v[j]? = some (some (decide (5 ≤ j ∧ j < arg 2)))) ∧
      (∀ j, j < arg 4 → j < 5 → v[j]? = some (some false)) ∧
      (∀ j, j < arg 4 → arg 2 ≤ j → v[j]? = some (some false)) := by
  obtain ⟨v, hv, hlen, key⟩ := CSumOp_entries env henv arg
  refine ⟨v, hv, hlen, key, ?_, ?_⟩
  · intro j hj h5
    rw [key j hj]
    have : ¬ (5 ≤ j ∧ j < arg 2) := by omega
    simp [this]
  · intro j hj h2
    rw [key j hj]
    have : ¬ (5 ≤ j ∧ j < arg 2) := by omega
    simp [this]

/-- Claim C16 at the sample `CSumOp` instruction. -/
theorem arg_is_variable_CSumOp_witness :
    ∃ v, arg_is_variable env8 CSumOp csum_args = .ok v ∧ v.length = csum_args 4 ∧
      (∀ j, j < csum_args 4 → v[j]? = some (some (decide (5 ≤ j ∧ j < csum_args 2)))) ∧
      (∀ j, j < csum_args 4 → j < 5 → v[j]? = some (some false)) ∧
      (∀ j, j < csum_args 4 → csum_args 2 ≤ j → v[j]? = some (some false)) :=
  arg_is_variable_CSumOp env8 (by decide) csum_args (by decide)

/-- Claim C17 as stated fails: the sample `CSumOp` instruction follows its layout and occupies
the 8 slots `arg[0], ..., arg[7]`, the last one being the trailing `arg[arg[4]] = arg[4]`, but
`arg_is_variable` returns a vector of size 7. -/
theorem arg_is_variable_CSumOp_size_misses_trailing_slot :
    ∃ v, arg_is_variable env8 CSumOp csum_args = .ok v ∧ v.length = 7 ∧
      CSumOp_layout csum_args ∧ CSumOp_num_slots csum_args = 8 ∧
      v.length ≠ CSumOp_num_slots csum_args :=
  ⟨_, rfl, rfl, by decide, rfl, by decide⟩

/-- Claim C17, amended: upon return from `arg_is_variable` the size of `is_variable` is
`NumArg(op)` for every `op < NumberOp` other than `CSkipOp` and `CSumOp`; for `CSkipOp` with a
sum `7 + arg[4] + arg[5]` that fits in the unsigned type `Addr` (no wrap-around) it is
`7 + arg[4] + arg[5]`, the number of slots of the instruction; and it is `arg[4]` for `CSumOp`,
one less than the number `arg[4] + 1` of slots `arg[0], ..., arg[arg[4]]` of the instruction:
the trailing slot has no entry. -/
theorem arg_is_variable_size (env : Env) (henv : env.ok) (op : OpCode) (hop : op < NumberOp)
    (arg : Nat → Nat) (hw : op = CSkipOp → 7 + arg 4 + arg 5 < 2 ^ env.Addr_bits) :
    ∃ v, arg_is_variable env op arg = .ok v ∧
      (op ≠ CSkipOp → op ≠ CSumOp → NumArg env op = .ok v.length) ∧
      (op = CSkipOp → v.length = 7 + arg 4 + arg 5 ∧ v.length = CSkipOp_num_slots arg) ∧
      (op = CSumOp → v.length = arg 4 ∧ v.length + 1 = CSumOp_num_slots arg) := by
  by_cases h1 : op = CSkipOp
  · subst h1
    have hN : (7 + arg 4 + arg 5) % 2 ^ env.Addr_bits = 7 + arg 4 + arg 5 :=
      Nat.mod_eq_of_lt (hw rfl)
    obtain ⟨v, hv, hlen, -⟩ := CSkipOp_entries env henv arg (by rw [hN]; omega)
    rw [hN] at hlen
    exact ⟨v, hv, fun h => absurd rfl h, fun _ => ⟨hlen, hlen⟩, fun h => absurd h (by decide)⟩
  · by_cases h2 : op = CSumOp
    · subst h2
      obtain ⟨v, hv, hlen, -⟩ := CSumOp_entries env henv arg
      exact ⟨v, hv, fun _ h => absurd rfl h, fun h => absurd h (by decide),
        fun _ => ⟨hlen, by rw [hlen]; rfl⟩⟩
    · obtain ⟨-, v, n, hn, hv, hlen, -⟩ := arg_is_variable_fixed env henv op hop h1 h2 arg
      exact ⟨v, hv, fun _ _ => by rw [hn, hlen], fun h => absurd h h1, fun h => absurd h h2⟩

/-- The amended claim C17 at the sample `CSumOp` instruction (size `arg[4] = 7`, 8 slots) and
at the sample `CSkipOp` instruction (size 10, 10 slots), with a 32 bit `Addr`. -/
theorem arg_is_variable_size_witness :
    (∃ v, arg_is_variable env8 CSumOp csum_args = .ok v ∧
      v.length = csum_args 4 ∧ v.length + 1 = CSumOp_num_slots csum_args) ∧
    7 + cskip_args 4 + cskip_args 5 < 2 ^ env8.Addr_bits ∧
    (∃ v, arg_is_variable env8 CSkipOp cskip_args = .ok v ∧
      v.length = 7 + cskip_args 4 + cskip_args 5 ∧
      v.length = CSkipOp_num_slots cskip_args) := by
  obtain ⟨v, hv, -, -, h3⟩ := arg_is_variable_size env8 (by decide) CSumOp (by decide)
    csum_args (fun h => absurd h (by decide))
  obtain ⟨u, hu, -, h2, -⟩ := arg_is_variable_size env8 (by decide) CSkipOp (by decide)
    cskip_args (fun _ => by decide)
  exact ⟨⟨v, hv, h3 rfl⟩, by decide, ⟨u, hu, h2 rfl⟩⟩

/-- Claim C18: for every `op < NumberOp` other than `CSkipOp` and `CSumOp`, `op` is one of the
case labels of the `switch` in `arg_is_variable` (so the `default` assertion is not reached),
and the call returns without a fault: the assertion `NumArg(op) == k` of the case holds and
every write `is_variable[j]` is inside the vector.  On return the size of `is_variable` is
`NumArg(op)` and every entry has been assigned. -/
theorem arg_is_variable_fixed_arity (env : Env) (henv : env.ok) (op : OpCode)
    (hop : op < NumberOp) (h1 : op ≠ CSkipOp) (h2 : op ≠ CSumOp) (arg : Nat → Nat) :
    op ∈ arg_is_variable_labels ∧
      ∃ v n, NumArg env op = .ok n ∧ arg_is_variable env op arg = .ok v ∧ v.length = n ∧
        ∀ x ∈ v, x.isSome = true :=
  arg_is_variable_fixed env henv op hop h1 h2 arg

/-- Claim C18 at `PriOp`, with the arguments of a sample instruction. -/
theorem arg_is_variable_fixed_arity_witness :
    PriOp ∈ arg_is_variable_labels ∧
      ∃ v n, NumArg env8 PriOp = .ok n ∧ arg_is_variable env8 PriOp cexp_le_args = .ok v ∧
        v.length = n ∧ ∀ x ∈ v, x.isSome = true :=
  arg_is_variable_fixed_arity env8 (by decide) PriOp (by decide) (by decide) (by decide)
    cexp_le_args

/-! ## The names of the operators -/

/-- Claim C19: for every `op < NumberOp`, the identifier of the `op`-th enumerator of `OpCode`
is `OpName(op)` followed by "Op"; for all `op < op2 < NumberOp`, `OpName(op)` is strictly less
than `OpName(op2)` in the lexicographic order that ignores case; hence `OpName` is injective on
the valid operator codes. -/
theorem OpName_alphabetical (op : OpCode) (hop : op < NumberOp) :
    (∃ name, OpName op = .ok name ∧ OpCodeIdent[op]? = some (name ++ "Op")) ∧
    (∀ op2, op < op2 → op2 < NumberOp →
      ∃ n1 n2, OpName op = .ok n1 ∧ OpName op2 = .ok n2 ∧ caseless_lt n1 n2 = true) ∧
    (∀ op2, op2 < NumberOp → OpName op2 = OpName op → op2 = op) := by
  refine ⟨⟨_, OpName_eq_ok op hop, ?_⟩, ?_, ?_⟩
  · rw [← ident_check op hop]
    exact getElem?_eq_getD_of_lt OpCodeIdent "" op (Nat.lt_of_lt_of_le hop (by decide))
  · intro op2 hlt hop2
    exact ⟨_, _, OpName_eq_ok op hop, OpName_eq_ok op2 hop2, order_check op hop op2 hop2 hlt⟩
  · intro op2 hop2 heq
    rw [OpName_eq_ok op hop, OpName_eq_ok op2 hop2, Except.ok.injEq] at heq
    rcases Nat.lt_trichotomy op2 op with h | h | h
    · have := order_check op2 hop2 op hop h
      rw [heq, caseless_lt, lex_lt_irrefl] at this
      cases this
    · exact h
    · have := order_check op hop op2 hop2 h
      rw [heq, caseless_lt, lex_lt_irrefl] at this
      cases this

/-- Claim C19 at `CoshOp` and `CSkipOp`: "Cosh" comes before "CSkip" when case is ignored. -/
theorem OpName_alphabetical_witness :
    (∃ name, OpName CoshOp = .ok name ∧ OpCodeIdent[CoshOp]? = some (name ++ "Op")) ∧
    (∃ n1 n2, OpName CoshOp = .ok n1 ∧ OpName CSkipOp = .ok n2 ∧ caseless_lt n1 n2 = true) ∧
    (OpName CSkipOp = OpName CoshOp → CSkipOp = CoshOp) :=
  ⟨(OpName_alphabetical CoshOp (by decide)).1,
    (OpName_alphabetical CoshOp (by decide)).2.1 CSkipOp (by decide) (by decide),
    (OpName_alphabetical CoshOp (by decide)).2.2 CSkipOp (by decide)⟩

/-- Claim C20: each of the fourteen comparison kinds produces no result variable and has two
arguments: `NumRes(op) = 0` and `NumArg(op) = 2`. -/
theorem comparison_kinds_no_result (env : Env) (henv : env.ok) (op : OpCode)
    (hop : op ∈ [EqppOp, EqpvOp, EqvvOp, LeppOp, LepvOp, LevpOp, LevvOp, LtppOp, LtpvOp, LtvpOp,
      LtvvOp, NeppOp, NepvOp, NevvOp]) :
    NumRes env op = .ok 0 ∧ NumArg env op = .ok 2 := by
  have hlt : op < NumberOp := by
    revert op
    decide
  rw [NumRes_eq_ok env henv op hlt, NumArg_eq_ok env henv op hlt, Except.ok.injEq,
    Except.ok.injEq]
  clear hlt
  revert op
  decide

/-- Claim C20 at `LtvpOp`. -/
theorem comparison_kinds_no_result_witness :
    NumRes env8 LtvpOp = .ok 0 ∧ NumArg env8 LtvpOp = .ok 2 :=
  comparison_kinds_no_result env8 (by decide) LtvpOp (by decide)

/-! ## `printOpField` -/

theorem takeWhile_replicate_append (k : Nat) (r : List Char) (h : r.head? ≠ some ' ') :
    (List.replicate k ' ' ++ r).takeWhile (fun c => c == ' ') = List.replicate k ' ' := by
  induction k with
  | zero =>
    cases r with
    | nil => rfl
    | cons c cs =>
      have hc : c ≠ ' ' := fun e => h (by rw [e]; rfl)
      simp [List.takeWhile_cons, hc]
  | succ n ih =>
    rw [List.replicate_succ, List.cons_append, List.takeWhile_cons]
    simp [ih]

theorem length_takeWhile_le_length (p : Char → Bool) (l : List Char) :
    (l.takeWhile p).length ≤ l.length := by
  induction l with
  | nil => simp
  | cons a t ih =>
    rw [List.takeWhile_cons]
    split
    · simp only [List.length_cons]
      omega
    · simp

/-- For a positive width `printOpField` returns, and it writes the leader followed by exactly
`width` characters. -/
theorem printOpField_width (os leader r : List Char) (width : Nat) (hw : 1 ≤ width) :
    ∃ out, printOpField os leader r width = .ok (os ++ leader ++ out) ∧ out.length = width := by
  unfold printOpField setw
  by_cases hlen : r.length ≤ width
  · have h1 : ¬ (List.replicate (width - r.length) ' ' ++ r).length > width := by
      simp only [List.length_append, List.length_replicate]
      omega
    simp only [h1, if_false]
    refine ⟨_, by rw [List.append_assoc], ?_⟩
    have h2 := length_takeWhile_le_length (fun c => c == ' ')
      (List.replicate (width - r.length) ' ' ++ r)
    simp only [List.length_append, List.length_replicate, List.length_drop] at h2 ⊢
    omega
  · have h1 : (List.replicate (width - r.length) ' ' ++ r).length > width := by
      simp only [List.length_append, List.length_replicate]
      omega
    have h0 : ¬ width = 0 := by omega
    simp only [h1, if_true, h0, if_false]
    refine ⟨_, by rw [List.append_assoc, List.append_assoc], ?_⟩
    simp only [List.length_append, List.length_take, List.length_replicate, List.length_cons,
      List.length_nil]
    omega

theorem printOpField_eq_chars (os leader value : List Char) (width : Nat) (hw : 1 ≤ width) :
    printOpField os leader value width =
      .ok (os ++ leader ++ printOpField_chars value width) := by
  have h0 : ¬ width = 0 := by omega
  unfold printOpField_chars printOpField
  simp only [h0, if_false]
  split <;> simp [List.append_assoc]

theorem length_printOpField_chars (value : List Char) (width : Nat) (hw : 1 ≤ width) :
    (printOpField_chars value width).length = width := by
  obtain ⟨out, h, hl⟩ := printOpField_width [] [] value width hw
  rw [printOpField_eq_chars [] [] value width hw, Except.ok.injEq] at h
  simp only [List.nil_append] at h
  rw [h]; exact hl

theorem field_eq (os : List Char) (leader : String) (value : List Char) (width : Nat)
    (hw : 1 ≤ width) :
    field os leader value width =
      .ok (os ++ leader.toList ++ printOpField_chars value width) := by
  rw [field, printOpField_eq_chars os leader.toList value width hw]; rfl

/-- Claim C22, evaluated where it fails: the text "123456" of an integer does not fit in the
width 5, and `printOpField` with the leader "v=" writes "v=1234*", the first four characters of
the value and one star, where the description of the parameter `width` promises the value
replaced by five stars, "v=*****". -/
theorem printOpField_overflow_keeps_digits :
    printOpField [] "v=".toList "123456".toList 5 = .ok "v=1234*".toList ∧
      printOpField [] "v=".toList "123456".toList 5 ≠ .ok "v=*****".toList := by
  have h : printOpField [] "v=".toList "123456".toList 5 = .ok "v=1234*".toList := rfl
  refine ⟨h, ?_⟩
  rw [h, ne_eq, Except.ok.injEq]
  decide

/-- Claim C23: for every stream, every leader, every width of at least one and every value,
`printOpField` returns and appends to the stream the leader followed by exactly `width`
characters; when the text `r` of the value does not start with a space and has at most `width`
characters, these characters are `r` followed by `width - |r|` spaces (for the empty text,
`width` spaces). -/
theorem printOpField_fixed_width (os leader r : List Char) (width : Nat) (hw : 1 ≤ width) :
    ∃ out, printOpField os leader r width = .ok (os ++ leader ++ out) ∧ out.length = width ∧
      (r.head? ≠ some ' ' → r.length ≤ width →
        out = r ++ List.replicate (width - r.length) ' ') := by
  obtain ⟨out, hout, hlen⟩ := printOpField_width os leader r width hw
  refine ⟨out, hout, hlen, ?_⟩
  intro hhead hr
  have h1 : ¬ (List.replicate (width - r.length) ' ' ++ r).length > width := by
    simp only [List.length_append, List.length_replicate]
    omega
  have e : printOpField os leader r width =
      .ok (os ++ leader ++ (r ++ List.replicate (width - r.length) ' ')) := by
    unfold printOpField setw
    simp only [h1, if_false, takeWhile_replicate_append _ r hhead, List.length_replicate,
      List.length_append]
    have hd : List.drop (width - r.length) (List.replicate (width - r.length) ' ' ++ r) = r := by
      rw [List.drop_append_of_le_length (by simp)]
      simp
    have hk : width - (width - r.length + r.length) + (width - r.length) = width - r.length := by
      omega
    have h3 : ¬ (width - r.length + r.length > width) := by omega
    simp only [h3, if_false]
    rw [hd, hk, List.append_assoc]
  rw [e, Except.ok.injEq] at hout
  exact (List.append_cancel_left hout).symm

/-- Claim C23 at the leader " vl=", the text "12" and the width 5: the field is " vl=12   ". -/
theorem printOpField_fixed_width_witness :
    ∃ out, printOpField [] " vl=".toList "12".toList 5 = .ok ([] ++ " vl=".toList ++ out) ∧
      out.length = 5 ∧ out = "12".toList ++ List.replicate (5 - "12".toList.length) ' ' := by
  obtain ⟨out, h1, h2, h3⟩ := printOpField_fixed_width [] " vl=".toList "12".toList 5 (by decide)
  exact ⟨out, h1, h2, h3 (by decide) (by decide)⟩

/-! ## `printOp` on the operators with a variable number of arguments -/

/-- Whatever the environment, `printOp` on a `CSkipOp` for which the check of the trailing
field, as it is evaluated in `addr_t`, fails ends with a fault, after at most the 22 characters
of the fields `o=`, `v=`, name and comparison. -/
theorem printOp_CSkipOp_faults (env : Env) (P : print_env) (os : List Char) (i_op i_var : Nat)
    (ind : Nat → Nat)
    (hb : ind ((6 + ind 4 + ind 5) % 2 ^ P.addr_t_bits) ≠ (ind 4 + ind 5) % 2 ^ P.addr_t_bits) :
    ∃ f s, printOp env P os i_op i_var CSkipOp ind = .error (f, s) ∧
      s.length ≤ os.length + 22 := by
  have hname : OpName CSkipOp = .ok "CSkip" := rfl
  have hl := fun v => length_printOpField_chars v 5 (by decide)
  have hl3 := fun v => length_printOpField_chars v 3 (by decide)
  cases hp : P.in_parallel with
  | true =>
    exact ⟨.assert_known "cannot print trace of AD operations in parallel mode", os,
      by simp [printOp, hp, assert_at, bind, Except.bind], by omega⟩
  | false =>
    cases hn : NumRes env CSkipOp with
    | error f =>
      simp [printOp, hp, assert_at, bind, Except.bind, field_eq, hn, call_at, hl]
      exact ⟨_, _, ⟨rfl, rfl⟩, by simp [hl]⟩
    | ok n =>
      by_cases h0 : ind 0 < CompareOpName.length <;> by_cases hpos : 0 < n <;>
        simp [printOp, hp, assert_at, bind, Except.bind, field_eq, hn, call_at, hname, h0, hb,
          hpos, hl, hl3] <;>
        exact ⟨_, _, ⟨rfl, rfl⟩, by simp [hl, hl3]⟩

/-- When `6 + ind[4] + ind[5]` fits in `addr_t`, the check of the trailing field of a `CSkipOp`
is evaluated without wrap-around. -/
theorem CSkipOp_check_of_fits (w : Nat) (ind : Nat → Nat)
    (h : ind ((6 + ind 4 + ind 5) % 2 ^ w) ≠ (ind 4 + ind 5) % 2 ^ w ∨
      (6 + ind 4 + ind 5 < 2 ^ w ∧ ind (6 + ind 4 + ind 5) ≠ ind 4 + ind 5)) :
    ind ((6 + ind 4 + ind 5) % 2 ^ w) ≠ (ind 4 + ind 5) % 2 ^ w := by
  rcases h with h | ⟨hw, h⟩
  · exact h
  · rw [Nat.mod_eq_of_lt hw, Nat.mod_eq_of_lt (by omega)]
    exact h

/-- Whatever the environment, `printOp` on a `CSumOp` whose trailing field is not `ind[4]` ends
with a fault, after at most the 22 characters of the fields `o=`, `v=` and name. -/
theorem printOp_CSumOp_faults (env : Env) (P : print_env) (os : List Char) (i_op i_var : Nat)
    (ind : Nat → Nat) (hb : ind (ind 4) ≠ ind 4) :
    ∃ f s, printOp env P os i_op i_var CSumOp ind = .error (f, s) ∧
      s.length ≤ os.length + 22 := by
  have hname : OpName CSumOp = .ok "CSum" := rfl
  have hl := fun v => length_printOpField_chars v 5 (by decide)
  have hl8 := fun v => length_printOpField_chars v 8 (by decide)
  cases hp : P.in_parallel with
  | true =>
    exact ⟨.assert_known "cannot print trace of AD operations in parallel mode", os,
      by simp [printOp, hp, assert_at, bind, Except.bind], by omega⟩
  | false =>
    cases hn : NumRes env CSumOp with
    | error f =>
      simp [printOp, hp, assert_at, bind, Except.bind, field_eq, hn, call_at, hl]
      exact ⟨_, _, ⟨rfl, rfl⟩, by simp [hl]⟩
    | ok n =>
      by_cases hpos : 0 < n <;>
        simp [printOp, hp, assert_at, bind, Except.bind, field_eq, hn, call_at, hname, hb,
          hpos, hl, hl8] <;>
        exact ⟨_, _, ⟨rfl, rfl⟩, by simp [hl, hl8]⟩

/-- Claim C21: `printOp` on a `CSkipOp` whose field `ind[6 + ind[4] + ind[5]]` differs from
`ind[4] + ind[5]` (index and sum as the code evaluates them in `addr_t`; in particular the
index and the sum themselves when `6 + ind[4] + ind[5]` fits in `addr_t`), and on a `CSumOp`
whose field `ind[ind[4]]` differs from `ind[4]`, never returns: the call ends with a fault when
at most the 22 characters of the fields `o=`, `v=` and name have been written.  In serial mode,
with an environment that passes the first-call checks (and, for `CSkipOp`, a comparison code
`ind[0]` inside `CompareOpName`), the fault is the failed assertion `CPPAD_ASSERT_UNKNOWN` on
the length, and the stream at the fault is the stream before the call followed by exactly
these fields: no field of an operand has been written. -/
theorem printOp_inconsistent_length_is_fault (env : Env) (P : print_env) (os : List Char)
    (i_op i_var : Nat) (ind : Nat → Nat) :
    ((ind ((6 + ind 4 + ind 5) % 2 ^ P.addr_t_bits) ≠ (ind 4 + ind 5) % 2 ^ P.addr_t_bits ∨
        (6 + ind 4 + ind 5 < 2 ^ P.addr_t_bits ∧ ind (6 + ind 4 + ind 5) ≠ ind 4 + ind 5)) →
      (∃ f s, printOp env P os i_op i_var CSkipOp ind = .error (f, s) ∧
        s.length ≤ os.length + 22) ∧
      (env.ok → P.in_parallel = false → ∀ rel, CompareOpName[ind 0]? = some rel →
        printOp env P os i_op i_var CSkipOp ind = .error (.assert_unknown,
          os ++ "o=".toList ++ printOpField_chars (text i_op) 5 ++
            "v=".toList ++ printOpField_chars [] 5 ++
            printOpField_chars "CSkip".toList 5 ++ printOpField_chars rel.toList 3))) ∧
    (ind (ind 4) ≠ ind 4 →
      (∃ f s, printOp env P os i_op i_var CSumOp ind = .error (f, s) ∧
        s.length ≤ os.length + 22) ∧
      (env.ok → P.in_parallel = false →
        printOp env P os i_op i_var CSumOp ind = .error (.assert_unknown,
          os ++ "o=".toList ++ printOpField_chars (text i_op) 5 ++
            "v=".toList ++ printOpField_chars (text i_var) 5 ++
            printOpField_chars "CSum".toList 8))) := by
  refine ⟨fun hb0 => ?_, fun hb => ⟨printOp_CSumOp_faults env P os i_op i_var ind hb, ?_⟩⟩
  · have hb := CSkipOp_check_of_fits P.addr_t_bits ind hb0
    refine ⟨printOp_CSkipOp_faults env P os i_op i_var ind hb, ?_⟩
    intro henv hp rel hrel
    have hname : OpName CSkipOp = .ok "CSkip" := rfl
    have hn : NumRes env CSkipOp = .ok 0 := NumRes_eq_ok env henv CSkipOp (by decide)
    have h0 : ind 0 < CompareOpName.length := by
      by_contra hc
      rw [List.getElem?_eq_none (by omega)] at hrel
      cases hrel
    rw [List.getElem?_eq_getElem h0, Option.some.injEq] at hrel
    simp [printOp, hp, assert_at, bind, Except.bind, field_eq, hn, call_at, hname, h0, hb, hrel]
  · intro henv hp
    have hname : OpName CSumOp = .ok "CSum" := rfl
    have hn : NumRes env CSumOp = .ok 1 := NumRes_eq_ok env henv CSumOp (by decide)
    simp [printOp, hp, assert_at, bind, Except.bind, field_eq, hn, call_at, hname, hb]

/-- Claim C21 at the instructions `cskip_bad_args` (trailing field 4, not 1 + 2; the index 9
fits in the 32 bit `addr_t`) and `csum_bad_args` (trailing field 8, not 7), printed as operator
12 with variable index 7. -/
theorem printOp_inconsistent_length_is_fault_witness :
    (6 + cskip_bad_args 4 + cskip_bad_args 5 < 2 ^ print0.addr_t_bits ∧
      cskip_bad_args (6 + cskip_bad_args 4 + cskip_bad_args 5) ≠
        cskip_bad_args 4 + cskip_bad_args 5 ∧ env8.ok ∧ print0.in_parallel = false ∧
      CompareOpName[cskip_bad_args 0]? = some "Lt" ∧
      printOp env8 print0 [] 12 7 CSkipOp cskip_bad_args = .error (.assert_unknown,
        [] ++ "o=".toList ++ printOpField_chars (text 12) 5 ++
          "v=".toList ++ printOpField_chars [] 5 ++
          printOpField_chars "CSkip".toList 5 ++ printOpField_chars "Lt".toList 3)) ∧
    (csum_bad_args (csum_bad_args 4) ≠ csum_bad_args 4 ∧
      printOp env8 print0 [] 12 7 CSumOp csum_bad_args = .error (.assert_unknown,
        [] ++ "o=".toList ++ printOpField_chars (text 12) 5 ++
          "v=".toList ++ printOpField_chars (text 7) 5 ++
          printOpField_chars "CSum".toList 8)) :=
  ⟨⟨by decide, by decide, by decide, rfl, by decide,
    (((printOp_inconsistent_length_is_fault env8 print0 [] 12 7 cskip_bad_args).1
      (Or.inr ⟨by decide, by decide⟩)).2 (by decide) rfl "Lt" (by decide))⟩,
   ⟨by decide,
    (((printOp_inconsistent_length_is_fault env8 print0 [] 12 7 csum_bad_args).2
      (by decide)).2 (by decide) rfl)⟩⟩

/-! ## `operator /=`: when it faults, and what it tags -/

theorem NumRes_not_known (env : Env) (op : OpCode) (msg : String) :
    NumRes env op ≠ .error (.assert_known msg) := by
  unfold NumRes CPPAD_ASSERT_FIRST_CALL_NOT_PARALLEL CPPAD_ASSERT_UNKNOWN
  cases env.first_call_parallel <;> by_cases h : op < NumberOp <;>
    simp [h, bind, Except.bind, pure, Except.pure, NumResTable]

theorem NumArg_not_known (env : Env) (op : OpCode) (msg : String) :
    NumArg env op ≠ .error (.assert_known msg) := by
  unfold NumArg CPPAD_ASSERT_FIRST_CALL_NOT_PARALLEL CPPAD_ASSERT_UNKNOWN
  cases env.first_call_parallel <;> cases env.first <;> cases env.is_pod_opcode_t <;>
    by_cases h : op < NumberOp <;> by_cases h2 : NumberOp < env.opcode_t_max <;>
    simp [h, h2, bind, Except.bind, pure, Except.pure, NumArgTable]

theorem assert_NumRes_NumArg_not_known (env : Env) (op : OpCode) (msg : String) :
    assert_NumRes_NumArg env op ≠ .error (.assert_known msg) := by
  have h1 := NumRes_not_known env op msg
  have h2 := NumArg_not_known env op msg
  unfold assert_NumRes_NumArg CPPAD_ASSERT_UNKNOWN
  cases hr : NumRes env op with
  | error f => rw [hr] at h1; simpa [bind, Except.bind] using h1
  | ok n =>
    cases ha : NumArg env op with
    | error f =>
      rw [ha] at h2
      by_cases hn : n = 1 <;> simp [bind, Except.bind, hn]
      simpa using h2
    | ok m =>
      by_cases hn : n = 1 <;> by_cases hm : m = 2 <;> simp [bind, Except.bind, hn, hm]

/-- The assertion on the threads of the two operands never fails. -/
theorem div_eq_never_different_threads {Base : Type} (env : Env) (B : BaseOps Base)
    (tape_ptr : Option (ADTape Base)) (self right : AD Base) (s : St Base) :
    AD.operator_div_eq env B tape_ptr self right ≠ .error
      (.assert_known "/= : AD variables or dynamic parameters on different threads.", s) := by
  intro h
  have hk := fun op => assert_NumRes_NumArg_not_known env op
    "/= : AD variables or dynamic parameters on different threads."
  cases tape_ptr with
  | none => simp [AD.operator_div_eq] at h
  | some tape =>
    by_cases hml : self.tape_id_ = tape.id_ <;> by_cases hmr : right.tape_id_ = tape.id_ <;>
      cases hdl : self.dynamic_ <;> cases hdr : right.dynamic_ <;>
      simp [AD.operator_div_eq, hml, hmr, hdl, hdr] at h <;>
      (repeat' split at h) <;> simp_all

/-- Claim C24: with an environment that passes the first-call checks and a recording tape whose
identity is positive, `operator /=` ends with a fault if and only if a tape is recording and
either the left operand is a dynamic parameter of the tape, the right operand is a variable of
the tape and the left value is not identically zero, or neither operand is a variable of the
tape and at least one of them is a dynamic parameter of the tape.  For all operands, tapes and
environments, the fault is never the one of the assertion with the message "/= : AD variables
or dynamic parameters on different threads.". -/
theorem div_eq_fault_iff {Base : Type} (env : Env) (henv : env.ok) (B : BaseOps Base)
    (tape_ptr : Option (ADTape Base)) (self right : AD Base)
    (hid : ∀ tape, tape_ptr = some tape → 0 < tape.id_) :
    ((∃ f s, AD.operator_div_eq env B tape_ptr self right = .error (f, s)) ↔
      ∃ tape, tape_ptr = some tape ∧
        ((self.is_dynamic tape.id_ ∧ right.is_variable tape.id_ ∧
            B.IdenticalZero self.value_ = false) ∨
          (¬ self.is_variable tape.id_ ∧ ¬ right.is_variable tape.id_ ∧
            (self.is_dynamic tape.id_ ∨ right.is_dynamic tape.id_)))) ∧
    ∀ (env1 : Env) (B1 : BaseOps Base) (tp : Option (ADTape Base)) (l r : AD Base)
      (s : St Base), AD.operator_div_eq env1 B1 tp l r ≠ .error
        (.assert_known "/= : AD variables or dynamic parameters on different threads.", s) := by
  refine ⟨?_, fun env1 B1 tp l r s => div_eq_never_different_threads env1 B1 tp l r s⟩
  cases tape_ptr with
  | none => simp [AD.operator_div_eq]
  | some tape =>
    have hpos : 0 < tape.id_ := hid tape rfl
    have h1 := assert_Divvv_ok env henv
    have h2 := assert_Divvp_ok env henv
    have h3 := assert_Divpv_ok env henv
    by_cases hml : self.tape_id_ = tape.id_ <;> by_cases hmr : right.tape_id_ = tape.id_ <;>
      cases hdl : self.dynamic_ <;> cases hdr : right.dynamic_ <;>
      cases hz : B.IdenticalZero self.value_ <;>
      cases ho : B.IdenticalOne right.value_ <;>
      simp [AD.operator_div_eq, AD.is_dynamic, AD.is_variable, hml, hmr, hdl, hdr, hz, ho, hpos,
        h1, h2, h3]

/-- Claim C24 at the dynamic parameter `p_dyn` of `tape2` divided by the constant `c_three`:
the call faults, and neither operand is a variable while the left one is a dynamic
parameter. -/
theorem div_eq_fault_iff_witness :
    env8.ok ∧ (∀ tape, some tape2 = some tape → 0 < tape.id_) ∧
    ((∃ f s, AD.operator_div_eq env8 intOps (some tape2) p_dyn c_three = .error (f, s)) ↔
      ∃ tape, some tape2 = some tape ∧
        ((p_dyn.is_dynamic tape.id_ ∧ c_three.is_variable tape.id_ ∧
            intOps.IdenticalZero p_dyn.value_ = false) ∨
          (¬ p_dyn.is_variable tape.id_ ∧ ¬ c_three.is_variable tape.id_ ∧
            (p_dyn.is_dynamic tape.id_ ∨ c_three.is_dynamic tape.id_)))) :=
  ⟨env8_ok, fun _ h => by rw [← Option.some.inj h]; decide,
    (div_eq_fault_iff env8 env8_ok intOps (some tape2) p_dyn c_three
      (fun _ h => by rw [← Option.some.inj h]; decide)).1⟩

/-- The vectors that `arg_is_variable` computes for the three division operators. -/
theorem arg_is_variable_Div (env : Env) (henv : env.ok) (arg : Nat → Nat) :
    arg_is_variable env DivvvOp arg = .ok [some true, some true] ∧
      arg_is_variable env DivvpOp arg = .ok [some true, some false] ∧
      arg_is_variable env DivpvOp arg = .ok [some false, some true] :=
  ⟨(arg_is_variable_env8 env henv _ (by decide) (by decide) arg).trans rfl,
    (arg_is_variable_env8 env henv _ (by decide) (by decide) arg).trans rfl,
    (arg_is_variable_env8 env henv _ (by decide) (by decide) arg).trans rfl⟩

/-- What one appended instruction with two arguments is, read off the recorder. -/
theorem appended_inj {Base : Type} (r r1 : recorder Base) (op op1 : OpCode) (a b a1 b1 : Nat)
    (pars pars1 : List Base) (h : r.appended r1 [op] [a, b] pars)
    (h1 : r.appended r1 [op1] [a1, b1] pars1) :
    op1 = op ∧ a1 = a ∧ b1 = b ∧ pars1 = pars := by
  obtain ⟨e1, e2, e3, _⟩ := h
  obtain ⟨f1, f2, f3, _⟩ := h1
  rw [e1] at f1
  rw [e2] at f2
  rw [e3] at f3
  have g1 := List.append_cancel_left f1
  have g2 := List.append_cancel_left f2
  have g3 := List.append_cancel_left f3
  simp only [List.cons.injEq, and_true] at g1 g2
  exact ⟨g1.symm, g2.1.symm, g2.2.symm, g3.symm⟩

theorem not_appended_self {Base : Type} (r : recorder Base) (op : OpCode) (args : List Nat)
    (pars : List Base) : ¬ r.appended r [op] args pars := by
  intro h
  have := congrArg List.length h.1
  simp at this

/-- Claim C25: when `operator /=` returns with one instruction `op` with the arguments
`(a, b)` appended to the tape, `op` is `DivvvOp`, `DivvpOp` or `DivpvOp`, and the vector
`is_variable = [l, r]` that `arg_is_variable` computes for `op` agrees with what the call put:
`l` is true exactly when the left operand is a variable of the tape, and then `a` is its
`taddr_`; `r` is true exactly when the right operand is a variable of the tape, and then `b` is
its `taddr_`; a position whose entry is false holds a parameter index, the result of
`put_con_par` for the operand's value (the one constant that is interned) or, for a right
operand that is a dynamic parameter of the tape, its own `taddr_` (no constant interned). -/
theorem div_eq_tagging_agrees_with_catalog {Base : Type} (env : Env) (henv : env.ok)
    (B : BaseOps Base) (tape : ADTape Base) (self right : AD Base) (hid : 0 < tape.id_)
    (s : St Base) (tape1 : ADTape Base) (op : OpCode) (a b : Nat) (pars : List Base)
    (h : AD.operator_div_eq env B (some tape) self right = .ok s)
    (ht : s.tape = some tape1) (happ : tape.Rec_.appended tape1.Rec_ [op] [a, b] pars) :
    (op = DivvvOp ∨ op = DivvpOp ∨ op = DivpvOp) ∧
    ∃ l r, (∀ arg, arg_is_variable env op arg = .ok [some l, some r]) ∧
      (l = true ↔ self.is_variable tape.id_) ∧ (r = true ↔ right.is_variable tape.id_) ∧
      (l = true → a = self.taddr_) ∧ (r = true → b = right.taddr_) ∧
      (l = false → a = (tape.Rec_.put_con_par self.value_).1 ∧ pars = [self.value_]) ∧
      (r = false →
        (right.is_dynamic tape.id_ ∧ b = right.taddr_ ∧ pars = []) ∨
        (¬ right.is_dynamic tape.id_ ∧ b = (tape.Rec_.put_con_par right.value_).1 ∧
          pars = [right.value_])) := by
  have h1 := assert_Divvv_ok env henv
  have h2 := assert_Divvp_ok env henv
  have h3 := assert_Divpv_ok env henv
  have hv := fun arg => arg_is_variable_Div env henv arg
  have key : ∀ (Rec1 : recorder Base) (op0 : OpCode) (a0 b0 : Nat) (pars0 : List Base),
      s.tape = some ⟨tape.id_, Rec1⟩ → tape.Rec_.appended Rec1 [op0] [a0, b0] pars0 →
      op = op0 ∧ a = a0 ∧ b = b0 ∧ pars = pars0 := by
    intro Rec1 op0 a0 b0 pars0 e happ0
    rw [ht, Option.some.injEq] at e
    subst e
    exact appended_inj _ _ _ _ _ _ _ _ _ _ happ0 happ
  have same : s.tape ≠ some tape := by
    intro e
    rw [ht, Option.some.injEq] at e
    subst e
    exact not_appended_self _ _ _ _ happ
  by_cases hml : self.tape_id_ = tape.id_ <;> by_cases hmr : right.tape_id_ = tape.id_ <;>
    cases hdl : self.dynamic_ <;> cases hdr : right.dynamic_ <;>
    cases hz : B.IdenticalZero self.value_ <;>
    cases ho : B.IdenticalOne right.value_ <;>
    simp [AD.operator_div_eq, hml, hmr, hdl, hdr, hz, ho, hid, h1, h2, h3] at h <;>
    subst h <;>
    first
    | exact absurd rfl same
    | (obtain ⟨rfl, rfl, rfl, rfl⟩ := key _ _ _ _ _ rfl (appended_PutArg_PutOp _ _ _ _)
       refine ⟨by simp, _, _, fun arg => (hv arg).1, ?_⟩
       simp [AD.is_variable, AD.is_dynamic, hml, hmr, hdl, hdr])
    | (obtain ⟨rfl, rfl, rfl, rfl⟩ := key _ _ _ _ _ rfl (appended_PutArg_PutOp _ _ _ _)
       refine ⟨by simp, _, _, fun arg => (hv arg).2.1, ?_⟩
       simp [AD.is_variable, AD.is_dynamic, hml, hmr, hdl, hdr])
    | (obtain ⟨rfl, rfl, rfl, rfl⟩ := key _ _ _ _ _ rfl (appended_put_con_par _ _ _ _ _)
       refine ⟨by simp, _, _, fun arg => (hv arg).2.1, ?_⟩
       simp [AD.is_variable, AD.is_dynamic, hml, hmr, hdl, hdr])
    | (obtain ⟨rfl, rfl, rfl, rfl⟩ := key _ _ _ _ _ rfl (appended_put_con_par _ _ _ _ _)
       refine ⟨by simp, _, _, fun arg => (hv arg).2.2, ?_⟩
       simp [AD.is_variable, AD.is_dynamic, hml, hmr, hdl, hdr])

/-- Claim C25 at the variable `x_var` of `tape2` divided by the constant `c_three`: the call
appends `DivvpOp` with the arguments `(1, 2)` and interns the constant 3 at the parameter
index 2; `is_variable` is `[true, false]`. -/
theorem div_eq_tagging_agrees_with_catalog_witness :
    (DivvpOp = DivvvOp ∨ DivvpOp = DivvpOp ∨ DivvpOp = DivpvOp) ∧
    ∃ l r, (∀ arg, arg_is_variable env8 DivvpOp arg = .ok [some l, some r]) ∧
      (l = true ↔ x_var.is_variable tape2.id_) ∧ (r = true ↔ c_three.is_variable tape2.id_) ∧
      (l = true → 1 = x_var.taddr_) ∧ (r = true → 2 = c_three.taddr_) ∧
      (l = false → 1 = (tape2.Rec_.put_con_par x_var.value_).1 ∧ [3] = [x_var.value_]) ∧
      (r = false →
        (c_three.is_dynamic tape2.id_ ∧ 2 = c_three.taddr_ ∧ ([3] : List Int) = []) ∨
        (¬ c_three.is_dynamic tape2.id_ ∧ 2 = (tape2.Rec_.put_con_par c_three.value_).1 ∧
          [3] = [c_three.value_])) :=
  div_eq_tagging_agrees_with_catalog env8 env8_ok intOps tape2 x_var c_three (by decide)
    ⟨⟨2, 2, 3, false⟩, some ⟨2, ⟨[BeginOp, InvOp, InvOp, DivvpOp], [0, 1, 2], [7, 9, 3],
      [false, true, false], 4⟩⟩⟩
    ⟨2, ⟨[BeginOp, InvOp, InvOp, DivvpOp], [0, 1, 2], [7, 9, 3], [false, true, false], 4⟩⟩
    DivvpOp 1 2 [3] rfl rfl (by simp [recorder.appended, tape2])

/-- Claim C26: while a tape with a positive identity is recording, if the left operand is not a
variable of the tape, its value before the division is identically zero and the right operand
is a variable of the tape, then `operator /=` returns without a fault (also when the left
operand is a dynamic parameter), the tape is as it was, and the left operand's `tape_id_`,
`taddr_` and `dynamic_` are as they were: it is not a variable of the tape, and it is a dynamic
parameter of the tape exactly when it was one. -/
theorem div_eq_zero_dividend {Base : Type} (env : Env) (B : BaseOps Base)
    (tape : ADTape Base) (self right : AD Base) (hid : 0 < tape.id_)
    (hl : ¬ self.is_variable tape.id_) (hz : B.IdenticalZero self.value_ = true)
    (hr : right.is_variable tape.id_) :
    ∃ s, AD.operator_div_eq env B (some tape) self right = .ok s ∧ s.tape = some tape ∧
      s.self.tape_id_ = self.tape_id_ ∧ s.self.taddr_ = self.taddr_ ∧
      s.self.dynamic_ = self.dynamic_ ∧ ¬ s.self.is_variable tape.id_ ∧
      (s.self.is_dynamic tape.id_ ↔ self.is_dynamic tape.id_) := by
  obtain ⟨hr1, hr2⟩ := hr
  refine ⟨⟨⟨B.div self.value_ right.value_, self.tape_id_, self.taddr_, self.dynamic_⟩,
    some tape⟩, ?_, rfl, rfl, rfl, rfl, hl, Iff.rfl⟩
  by_cases hm : self.tape_id_ = tape.id_
  · have hd : self.dynamic_ = true := by
      cases hd : self.dynamic_
      · exact absurd ⟨hm, hd⟩ hl
      · rfl
    simp [AD.operator_div_eq, hr1, hr2, hm, hd, hid, hz]
  · simp [AD.operator_div_eq, hr1, hr2, hm, hid, hz]

/-- Claim C26 at the dynamic parameter `p_zero` of `tape2`, whose value is 0, divided by the
variable `y_var`. -/
theorem div_eq_zero_dividend_witness :
    ∃ s, AD.operator_div_eq env8 intOps (some tape2) p_zero y_var = .ok s ∧
      s.tape = some tape2 ∧
      s.self.tape_id_ = p_zero.tape_id_ ∧ s.self.taddr_ = p_zero.taddr_ ∧
      s.self.dynamic_ = p_zero.dynamic_ ∧ ¬ s.self.is_variable tape2.id_ ∧
      (s.self.is_dynamic tape2.id_ ↔ p_zero.is_dynamic tape2.id_) :=
  div_eq_zero_dividend env8 intOps tape2 p_zero y_var (by decide) (by decide) (by decide)
    (by decide)

/-! ## `operator /=`: the value part -/

/-- The value that `operator /=` leaves in `*this` at a fault. -/
theorem div_eq_value_at_fault {Base : Type} (env : Env) (B : BaseOps Base)
    (tape_ptr : Option (ADTape Base)) (self right : AD Base) (f : Fault) (s : St Base)
    (h : AD.operator_div_eq env B tape_ptr self right = .error (f, s)) :
    s.self.value_ = B.div self.value_ right.value_ := by
  cases tape_ptr with
  | none => simp [AD.operator_div_eq] at h
  | some tape =>
    by_cases hml : self.tape_id_ = tape.id_ <;>
      by_cases hmr : right.tape_id_ = tape.id_ <;>
      cases hdl : self.dynamic_ <;> cases hdr : right.dynamic_ <;>
      simp [AD.operator_div_eq, hml, hmr, hdl, hdr] at h <;>
      (repeat' split at h) <;>
      first
      | (simp at h; done)
      | (cases h; rfl)

/-- The value that `operator /=` leaves in `*this` upon return. -/
theorem div_eq_value_at_return {Base : Type} (env : Env) (B : BaseOps Base)
    (tape_ptr : Option (ADTape Base)) (self right : AD Base) (s : St Base)
    (h : AD.operator_div_eq env B tape_ptr self right = .ok s) :
    s.self.value_ = B.div self.value_ right.value_ := by
  cases tape_ptr with
  | none => simp [AD.operator_div_eq] at h; rw [← h]
  | some tape =>
    by_cases hml : self.tape_id_ = tape.id_ <;>
      by_cases hmr : right.tape_id_ = tape.id_ <;>
      cases hdl : self.dynamic_ <;> cases hdr : right.dynamic_ <;>
      simp [AD.operator_div_eq, hml, hmr, hdl, hdr] at h <;>
      (repeat' split at h) <;>
      first
      | (simp at h; done)
      | (cases h; rfl)

/-- Claim C27 as stated fails in the call `x /= x`: with no tape recording and the object
`x_var` (value 6) at address 0 as both operands, the call returns and leaves the value 1 in the
object at address 0, which is the right operand: the right operand is modified. -/
theorem div_eq_self_modifies_right :
    AD.operator_div_eq_at env8 intOps none mem_xy 0 0 =
        .ok (Function.update mem_xy 0 ⟨1, 2, 1, false⟩, none) ∧
      (mem_xy 0).value_ = 6 ∧
      (Function.update mem_xy 0 (⟨1, 2, 1, false⟩ : AD Int) 0).value_ = 1 :=
  ⟨rfl, rfl, rfl⟩

/-- Claim C27, amended: every call of `operator /=` ends, with a return or with a fault, in a
store where the left operand's `value_` is the quotient of the left and the right `value_`
before the call and every object other than the left operand is as it was; so the right
operand is not modified when it is another object, and in the call `x /= x` the right operand
is the left operand and its `value_` becomes `x / x`.  When no tape is recording the call
returns, the left operand differs from what it was in `value_` only, and no tape is there
afterwards. -/
theorem div_eq_value_part {Base : Type} (env : Env) (B : BaseOps Base)
    (tape_ptr : Option (ADTape Base)) (mem : Nat → AD Base) (i j : Nat) :
    (∃ m t, (AD.operator_div_eq_at env B tape_ptr mem i j = .ok (m, t) ∨
        ∃ f, AD.operator_div_eq_at env B tape_ptr mem i j = .error (f, m, t)) ∧
      (m i).value_ = B.div (mem i).value_ (mem j).value_ ∧
      (∀ k, k ≠ i → m k = mem k) ∧
      (j ≠ i → m j = mem j) ∧
      (j = i → (m j).value_ = B.div (mem i).value_ (mem i).value_)) ∧
    (tape_ptr = none → AD.operator_div_eq_at env B tape_ptr mem i j =
      .ok (Function.update mem i
        { mem i with value_ := B.div (mem i).value_ (mem j).value_ }, none)) := by
  refine ⟨?_, ?_⟩
  · cases h : AD.operator_div_eq env B tape_ptr (mem i) (mem j) with
    | ok s =>
      have hv := div_eq_value_at_return env B tape_ptr (mem i) (mem j) s h
      refine ⟨Function.update mem i s.self, s.tape, Or.inl (by simp [AD.operator_div_eq_at, h]),
        by simpa using hv, fun k hk => by simp [Function.update, hk],
        fun hj => by simp [Function.update, hj], fun hj => ?_⟩
      subst hj
      simpa using hv
    | error e =>
      obtain ⟨f, s⟩ := e
      have hv := div_eq_value_at_fault env B tape_ptr (mem i) (mem j) f s h
      refine ⟨Function.update mem i s.self, s.tape,
        Or.inr ⟨f, by simp [AD.operator_div_eq_at, h]⟩,
        by simpa using hv, fun k hk => by simp [Function.update, hk],
        fun hj => by simp [Function.update, hj], fun hj => ?_⟩
      subst hj
      simpa using hv
  · intro ht
    subst ht
    simp [AD.operator_div_eq_at, AD.operator_div_eq]

/-- The amended claim C27 at the store `mem_xy`, for the call that divides the object at
address 0 by the object at address 1, with `tape2` recording and with no tape. -/
theorem div_eq_value_part_witness :
    (∃ m t, (AD.operator_div_eq_at env8 intOps (some tape2) mem_xy 0 1 = .ok (m, t) ∨
        ∃ f, AD.operator_div_eq_at env8 intOps (some tape2) mem_xy 0 1 = .error (f, m, t)) ∧
      (m 0).value_ = intOps.div (mem_xy 0).value_ (mem_xy 1).value_ ∧ m 1 = mem_xy 1) ∧
    AD.operator_div_eq_at env8 intOps none mem_xy 0 1 =
      .ok (Function.update mem_xy 0
        { mem_xy 0 with value_ := intOps.div (mem_xy 0).value_ (mem_xy 1).value_ }, none) := by
  obtain ⟨m, t, h1, h2, _, h4, _⟩ :=
    (div_eq_value_part env8 intOps (some tape2) mem_xy 0 1).1
  exact ⟨⟨m, t, h1, h2, h4 (by decide)⟩,
    (div_eq_value_part env8 intOps none mem_xy 0 1).2 rfl⟩

/-! ## `link_ode` -/

/-- The loop, with the last execution of the body taken apart. -/
theorem link_ode_loop_succ {R A F W : Type} {n : Nat} (E : ode_env R A F W) (k : Nat)
    (s : ode_state R A W n) :
    link_ode_loop E (k + 1) s = link_ode_body E (link_ode_loop E k s) := by
  induction k generalizing s with
  | zero => rfl
  | succ k ih => rw [link_ode_loop, ih (link_ode_body E s), link_ode_loop]

/-- One execution of the body of the loop with the record of the calls: the variables are
those of the body without the record, and the five calls, with their arguments, are added to
the record. -/
theorem link_ode_body_logged {R A F W : Type} {n : Nat} (E : ode_env R A F W)
    (s : ode_state R A W n) (l : List (ode_call R A F)) :
    link_ode_body E.logged ⟨s.x, s.gradient, s.X, s.Y, (s.world, l)⟩ =
      ⟨(link_ode_body E s).x, (link_ode_body E s).gradient, (link_ode_body E s).X,
        (link_ode_body E s).Y, ((link_ode_body E s).world,
          l ++ [.uniform_01 n (List.ofFn s.x),
            .Independent (List.ofFn fun j => E.AD_of ((link_ode_body E s).x j)),
            .ode_evaluate (List.ofFn (link_ode_body E s).X) 0 s.Y,
            .ADFun (List.ofFn (link_ode_body E s).X) (link_ode_body E s).Y,
            .Reverse (E.ADFun (link_ode_body E s).X (link_ode_body E s).Y
              (E.ode_evaluate (link_ode_body E s).X 0 s.Y
                (E.Independent (fun j => E.AD_of ((link_ode_body E s).x j))
                  (E.uniform_01 n s.x s.world).2).2).2).1 1 [E.one]])⟩ := by
  simp [link_ode_body, ode_env.logged]

/-- The loop with the record of the calls: the variables are those of the loop without the
record, and `5 * k` calls are added to the record. -/
theorem link_ode_loop_logged {R A F W : Type} {n : Nat} (E : ode_env R A F W) (k : Nat)
    (s : ode_state R A W n) (l : List (ode_call R A F)) :
    ∃ L : List (ode_call R A F), L.length = 5 * k ∧
      link_ode_loop E.logged k ⟨s.x, s.gradient, s.X, s.Y, (s.world, l)⟩ =
        ⟨(link_ode_loop E k s).x, (link_ode_loop E k s).gradient, (link_ode_loop E k s).X,
          (link_ode_loop E k s).Y, ((link_ode_loop E k s).world, l ++ L)⟩ := by
  induction k generalizing s l with
  | zero => exact ⟨[], rfl, by simp [link_ode_loop]⟩
  | succ k ih =>
    obtain ⟨L5, hb, h5⟩ : ∃ L5 : List (ode_call R A F),
        link_ode_body E.logged ⟨s.x, s.gradient, s.X, s.Y, (s.world, l)⟩ =
          ⟨(link_ode_body E s).x, (link_ode_body E s).gradient, (link_ode_body E s).X,
            (link_ode_body E s).Y, ((link_ode_body E s).world, l ++ L5)⟩ ∧ L5.length = 5 :=
      ⟨_, link_ode_body_logged E s l, rfl⟩
    rw [link_ode_loop, hb, link_ode_loop]
    obtain ⟨L, hL, h⟩ := ih (link_ode_body E s) (l ++ L5)
    refine ⟨L5 ++ L, ?_, ?_⟩
    · rw [List.length_append, hL, h5]
      omega
    · rw [h, List.append_assoc]

/-- Claim C28: for every number of repetitions and both values of `retape`, `link_ode` returns
true and does the same for the two values of `retape`; with no repetition the variables are as
they were (`x`, `gradient` and the shared state are unchanged).  One more repetition is one
more execution of the body: from the variables `s` after `repeat` repetitions to the variables
`t` after `repeat + 1` repetitions, `uniform_01(n, x)` assigns the new `x`, `Independent(X)` is
called on the vector `X[j] = x[j]`, `ode_evaluate(X, 0, Y)` assigns `Y`, one `ADFun` is
constructed from `X` and `Y`, and `gradient` is what its `Reverse(1, w)` returns for `w = [1]`.
With a record of the calls, `repeat` repetitions make `5 * repeat` calls, and the repetition
that follows adds exactly these five calls, each once, in this order and with these
arguments. -/
theorem link_ode_tapes_each_repetition {R A F W : Type} {n : Nat} (E : ode_env R A F W)
    (repeat_ : Nat) (retape : Bool) (x : Fin n → R) (gradient : List R) (world : W)
    (s t : ode_state R A W n)
    (hs : (link_ode E repeat_ retape x gradient world).2 = s)
    (ht : (link_ode E (repeat_ + 1) retape x gradient world).2 = t) :
    (link_ode E repeat_ retape x gradient world).1 = true ∧
    link_ode E repeat_ retape x gradient world = link_ode E repeat_ (!retape) x gradient world ∧
    (link_ode E 0 retape x gradient world).2 =
      ⟨x, gradient, fun _ => E.AD_default, [E.AD_default], world⟩ ∧
    ∃ w1 w2 w3 w4 f,
      E.uniform_01 n s.x s.world = (t.x, w1) ∧
      E.Independent (fun j => E.AD_of (t.x j)) w1 = (t.X, w2) ∧
      E.ode_evaluate t.X 0 s.Y w2 = (t.Y, w3) ∧
      E.ADFun t.X t.Y w3 = (f, w4) ∧
      E.Reverse f 1 [E.one] w4 = (t.gradient, t.world) ∧
      ∀ l, ∃ L : List (ode_call R A F), L.length = 5 * repeat_ ∧
        link_ode E.logged repeat_ retape x gradient (world, l) =
          (true, ⟨s.x, s.gradient, s.X, s.Y, (s.world, l ++ L)⟩) ∧
        link_ode E.logged (repeat_ + 1) retape x gradient (world, l) =
          (true, ⟨t.x, t.gradient, t.X, t.Y, (t.world,
            l ++ L ++ [.uniform_01 n (List.ofFn s.x),
              .Independent (List.ofFn fun j => E.AD_of (t.x j)),
              .ode_evaluate (List.ofFn t.X) 0 s.Y,
              .ADFun (List.ofFn t.X) t.Y,
              .Reverse f 1 [E.one]])⟩) := by
  subst hs ht
  refine ⟨rfl, rfl, rfl, ?_⟩
  simp only [link_ode]
  rw [link_ode_loop_succ]
  refine ⟨_, _, _, _, _, rfl, rfl, rfl, rfl, rfl, fun l => ?_⟩
  obtain ⟨L, hL, h⟩ := link_ode_loop_logged E repeat_
    ⟨x, gradient, fun _ => E.AD_default, [E.AD_default], world⟩ l
  refine ⟨L, hL, congrArg (Prod.mk true) h, congrArg (Prod.mk true) ?_⟩
  rw [link_ode_loop_succ]
  exact (congrArg (link_ode_body E.logged) h).trans (link_ode_body_logged E _ (l ++ L))

/-- Claim C28 at the sample environment `ode0`, for the second repetition on a vector of three
elements. -/
theorem link_ode_tapes_each_repetition_witness :
    ∃ w1 w2 w3 w4 f,
      ode0.uniform_01 3 (link_ode ode0 1 true (fun (_ : Fin 3) => 0) [5] ()).2.x
          (link_ode ode0 1 true (fun (_ : Fin 3) => 0) [5] ()).2.world =
        ((link_ode ode0 2 true (fun (_ : Fin 3) => 0) [5] ()).2.x, w1) ∧
      ode0.Independent
          (fun j => ode0.AD_of ((link_ode ode0 2 true (fun (_ : Fin 3) => 0) [5] ()).2.x j)) w1 =
        ((link_ode ode0 2 true (fun (_ : Fin 3) => 0) [5] ()).2.X, w2) ∧
      ode0.ode_evaluate (link_ode ode0 2 true (fun (_ : Fin 3) => 0) [5] ()).2.X 0
          (link_ode ode0 1 true (fun (_ : Fin 3) => 0) [5] ()).2.Y w2 =
        ((link_ode ode0 2 true (fun (_ : Fin 3) => 0) [5] ()).2.Y, w3) ∧
      ode0.ADFun (link_ode ode0 2 true (fun (_ : Fin 3) => 0) [5] ()).2.X
          (link_ode ode0 2 true (fun (_ : Fin 3) => 0) [5] ()).2.Y w3 = (f, w4) ∧
      ode0.Reverse f 1 [ode0.one] w4 =
        ((link_ode ode0 2 true (fun (_ : Fin 3) => 0) [5] ()).2.gradient,
          (link_ode ode0 2 true (fun (_ : Fin 3) => 0) [5] ()).2.world) := by
  obtain ⟨_, _, _, w1, w2, w3, w4, f, h1, h2, h3, h4, h5, _⟩ :=
    link_ode_tapes_each_repetition ode0 1 true (fun (_ : Fin 3) => 0) [5] () _ _ rfl rfl
  exact ⟨w1, w2, w3, w4, f, h1, h2, h3, h4, h5⟩

end CppAD
